import Mathlib

set_option maxHeartbeats 1000000

/-!
A shallow embedding of the MolViz mol2 importer (`molviz.py`) together with proofs
about the behaviour of its parsing, geometry and colour-assignment kernel.

The embedding models the operator `MoleculeVisualizer_ImportMolecule` line by line:
Python strings stay strings, Python exceptions become explicit error values
(`PyError`), Blender objects become records carrying a creation-order identity
(`objId`), Blender materials become `Material` records, and the Blender scene is the
ordered list of molecule objects created so far.  File coordinates are parsed into
exact rationals; the cylinder pose produced by `create_bond` lives in `ℝ`.
-/

namespace MolViz

/-- Python's `str.strip()`: remove leading and trailing whitespace. -/
def pyStrip (s : String) : String :=
  ⟨((s.toList.dropWhile Char.isWhitespace).reverse.dropWhile Char.isWhitespace).reverse⟩

/-- Accumulating splitter behind `pySplit`: `cur` holds the reversed characters of
the field being read. -/
def pySplitList : List Char → List Char → List (List Char)
  | [], cur => if cur = [] then [] else [cur.reverse]
  | c :: cs, cur =>
    if c.isWhitespace then
      if cur = [] then pySplitList cs [] else cur.reverse :: pySplitList cs []
    else pySplitList cs (c :: cur)

/-- Python's `str.split()` with no argument: split on runs of whitespace, producing
no empty fields. -/
def pySplit (s : String) : List String := (pySplitList s.toList []).map (fun cs => ⟨cs⟩)

/-- Substring containment on character lists: some suffix of `s` starts with `sub`. -/
def listContainsSub (s sub : List Char) : Bool :=
  (List.range (s.length + 1)).any (fun i => sub.isPrefixOf (List.drop i s))

/-- Python's `sub in s` substring test on strings. -/
def strContains (s sub : String) : Bool := listContainsSub s.toList sub.toList

/-- Numeric value of a list of ASCII digits, most significant first. -/
def digitsVal (cs : List Char) : ℕ := cs.foldl (fun n c => 10 * n + (c.toNat - 48)) 0

/-- `true` when the list is nonempty and all its characters are ASCII digits. -/
def allDigits (cs : List Char) : Bool := !cs.isEmpty && cs.all Char.isDigit

/-- Modelled from Python's built-in `int(...)` on the strings this importer meets:
an optional sign followed by one or more ASCII digits parses to that integer;
any other string raises `ValueError`, modelled as `none`. -/
def pyInt (s : String) : Option ℤ :=
  match s.toList with
  | '-' :: rest => if allDigits rest then some (-(digitsVal rest : ℤ)) else none
  | '+' :: rest => if allDigits rest then some (digitsVal rest : ℤ) else none
  | cs => if allDigits cs then some (digitsVal cs : ℤ) else none

/-- Magnitude part of a Python float literal: digits with an optional single
decimal point, at least one digit overall. -/
def pyFloatMag (cs : List Char) : Option ℚ :=
  let ip := cs.takeWhile Char.isDigit
  let rest := cs.dropWhile Char.isDigit
  match rest with
  | [] => if ip.isEmpty then none else some (mkRat (digitsVal ip) 1)
  | '.' :: frac =>
      if frac.all Char.isDigit && !(ip.isEmpty && frac.isEmpty) then
        some (mkRat (digitsVal ip * 10 ^ frac.length + digitsVal frac) (10 ^ frac.length))
      else none
  | _ => none

/-- Modelled from Python's built-in `float(...)` on the plain decimal literals found
in mol2 coordinate fields: optional sign, digits, optional fractional part.  Other
strings raise `ValueError`, modelled as `none`. -/
def pyFloat (s : String) : Option ℚ :=
  match s.toList with
  | '-' :: rest => (pyFloatMag rest).map (fun q => -q)
  | '+' :: rest => pyFloatMag rest
  | cs => pyFloatMag cs

/-- The character loop of `parse_element_string`: the first uppercase letter becomes
`first`; once `first` is set, the next lowercase letter is appended and the scan
stops (the Python `break`). -/
def elementLoop : List Char → String → String
  | [], first => first
  | c :: cs, first =>
    if first.isEmpty && c.isUpper then elementLoop cs (String.singleton c)
    else if !first.isEmpty && c.isLower then first.push c
    else elementLoop cs first

/-- `MoleculeVisualizer_ImportMolecule.parse_element_string`: drop ASCII digits,
then run the first-uppercase / next-lowercase scan. -/
def parse_element_string (s : String) : String :=
  elementLoop (s.toList.filter (fun c => !c.isDigit)) ""

/-- A Blender material: its creation-order identity, and whether its node tree has a
"Principled BSDF" node (true for every material this addon creates). -/
structure Material where
  matId : ℕ
  hasBSDF : Bool
deriving DecidableEq, Repr

/-- One entry of a molecule's `element_materials` collection. -/
structure ElementMaterial where
  element : String
  material : Material
deriving DecidableEq, Repr

/-- An atom object: Blender object identity, `MolViz_AtomProperties` (id, element),
its location, and the material slots of its mesh data. -/
structure Atom where
  objId : ℕ
  id : ℤ
  element : String
  location : ℚ × ℚ × ℚ
  materials : List Material
deriving DecidableEq, Repr

/-- The pose of the cylinder primitive `create_bond` adds: radius, depth, centre
location, and the two Euler rotations it sets (`rotation_euler[1]` and `[2]`). -/
structure CylinderPose where
  radius : ℝ
  depth : ℝ
  location : ℝ × ℝ × ℝ
  rotY : ℝ
  rotZ : ℝ

/-- A bond object: Blender object identity, `MolViz_BondProperties` (id, source and
target atom objects) and the cylinder pose. -/
structure BondObj where
  objId : ℕ
  id : ℤ
  source : Atom
  target : Atom
  pose : CylinderPose

/-- A molecule empty object together with its `MolViz_MoleculeProperties` and its
bond children in creation order. -/
structure MolObj where
  objId : ℕ
  name : String
  atoms : List Atom
  bonds : List BondObj
  element_materials : List ElementMaterial

/-- Python exceptions that can escape the importer's helpers. -/
inductive PyError
  | indexError
  | valueError
  | attributeError
  | assertionError
deriving DecidableEq, Repr

/-- `molviz_add_atom`: add the object to the collection unless that same object is
already present; return the updated collection and whether it was added. -/
def molviz_add_atom (collection : List Atom) (obj : Atom) : List Atom × Bool :=
  if collection.any (fun el => el = obj) then (collection, false)
  else (collection ++ [obj], true)

/-- `molviz_add_element_material`: add the (element, material) pair unless an entry
for the element already exists. -/
def molviz_add_element_material (collection : List ElementMaterial)
    (elmat : String × Material) : List ElementMaterial × Bool :=
  if collection.any (fun el => el.element = elmat.1) then (collection, false)
  else (collection ++ [⟨elmat.1, elmat.2⟩], true)

/-- `find_atom_from_id`: first atom in the collection whose id matches. -/
def find_atom_from_id : List Atom → ℤ → Option Atom
  | [], _ => none
  | a :: rest, i => if a.id = i then some a else find_atom_from_id rest i

/-- `find_material_from_element`: first material registered for the element. -/
def find_material_from_element : List ElementMaterial → String → Option Material
  | [], _ => none
  | e :: rest, el => if e.element = el then some e.material else find_material_from_element rest el

/-- The loop of `list_materials_in_molecule`.  Note the code computes
`parse_element_string(cline[1])` Before testing `len(cline) >= 5`, so a line with
fewer than two fields inside the atom section raises `IndexError`. -/
def lmLoop : List String → Bool → List String → Except PyError (List String)
  | [], _, elements => .ok elements
  | line :: rest, atoms, elements =>
    let sline := pyStrip line
    if strContains sline "@<TRIPOS>ATOM" then lmLoop rest true elements
    else if strContains sline "@<TRIPOS>BOND" then .ok elements
    else if atoms then
      match (pySplit sline).get? 1 with
      | none => .error .indexError
      | some t =>
        let element := parse_element_string t
        if 5 ≤ (pySplit sline).length ∧ element ∉ elements then
          lmLoop rest atoms (elements ++ [element])
        else lmLoop rest atoms elements
    else lmLoop rest atoms elements

/-- `list_materials_in_molecule`: the element-collection pre-pass over the lines of
the molecule being imported. -/
def list_materials_in_molecule (lines : List String) : Except PyError (List String) :=
  lmLoop lines false []

/-- The body of the inner loop of `import_materials`: copy one candidate entry when
its element is wanted and not yet present. -/
def importEntry (elements_in_molecule : List String) (acc2 : MolObj)
    (el : ElementMaterial) : MolObj :=
  if el.element ∈ elements_in_molecule ∧
      el.element ∉ acc2.element_materials.map (fun x => x.element) then
    { acc2 with element_materials :=
        (molviz_add_element_material acc2.element_materials (el.element, el.material)).1 }
  else acc2

/-- The body of the outer loop of `import_materials`: walk one scene molecule's
element materials whose material has its "Principled BSDF" node. -/
def importFromMol (elements_in_molecule : List String) (acc : MolObj) (m : MolObj) : MolObj :=
  (m.element_materials.filter (fun x => x.material.hasBSDF)).foldl
    (importEntry elements_in_molecule) acc

/-- `import_materials`: copy into `mol` the element materials of every molecule
already in the scene (objects with a nonempty atom list) whose element occurs in
`elements_in_molecule` and is not yet present in `mol`.  The leading `assert` that
`mol` has no element materials yet is modelled as `assertionError`. -/
def import_materials (sceneObjs : List MolObj) (mol : MolObj)
    (elements_in_molecule : List String) : Except PyError MolObj :=
  if mol.element_materials.length ≠ 0 then .error .assertionError
  else
    let molecules := sceneObjs.filter (fun x => !x.atoms.isEmpty)
    .ok (molecules.foldl (importFromMol elements_in_molecule) mol)

/-- Result of `check_element_and_assign_material`: the updated molecule, the atom
object with its material slot appended, and the material creation counter. -/
structure AssignRes where
  mol : MolObj
  obj : Atom
  ctr : ℕ

/-- `check_element_and_assign_material`: if the atom's element has no registered
material yet, create a fresh material (with nodes enabled, hence a BSDF node),
append it to the object and register it; otherwise look the material up and append
it to the object. -/
def check_element_and_assign_material (mol : MolObj) (obj : Atom) (ctr : ℕ) : AssignRes :=
  let elements_already_added := mol.element_materials.map (fun x => x.element)
  let element := obj.element
  if element ∉ elements_already_added then
    let mat : Material := ⟨ctr, true⟩
    ⟨{ mol with element_materials :=
        (molviz_add_element_material mol.element_materials (element, mat)).1 },
      { obj with materials := obj.materials ++ [mat] }, ctr + 1⟩
  else
    let mat? := find_material_from_element mol.element_materials element
    ⟨mol, { obj with materials := obj.materials ++ mat?.toList }, ctr⟩

/-- Modelled from Python's `math.atan2(y, x)`: the argument of the complex number
`x + i y`, with `atan2 0 0 = 0`. -/
noncomputable def atan2 (y x : ℝ) : ℝ := Complex.arg ⟨x, y⟩

open scoped Classical in
/-- `create_bond` between two points: the code computes the Euclidean distance,
returns `None` when it is zero, and otherwise adds a cylinder of that depth at the
midpoint with `rotation_euler[1] = acos(dz/dist)` and `rotation_euler[2] =
atan2(dy, dx)`.  Only the pose of the created cylinder object is modelled. -/
noncomputable def create_bond (source target : ℝ × ℝ × ℝ) (r : ℝ) : Option CylinderPose :=
  let dx := target.1 - source.1
  let dy := target.2.1 - source.2.1
  let dz := target.2.2 - source.2.2
  let dist := Real.sqrt (dx ^ 2 + dy ^ 2 + dz ^ 2)
  if dist = 0 then none
  else
    some { radius := r, depth := dist,
           location := (dx / 2 + source.1, dy / 2 + source.2.1, dz / 2 + source.2.2),
           rotY := Real.arccos (dz / dist), rotZ := atan2 dy dx }

/-- Coordinates parsed from the file, viewed as a real point. -/
def q3r (p : ℚ × ℚ × ℚ) : ℝ × ℝ × ℝ := ((p.1 : ℝ), (p.2.1 : ℝ), (p.2.2 : ℝ))

/-- The atom branch of the main extraction loop (`if atoms:` in `execute`), applied
to the stripped line.  The sphere object for the atom is created after the three
`float` calls succeed and before `int(cline[0])` is parsed, so a bad id field
raises `ValueError` after the object id `ctr` is consumed.  The code appends the
atom object to the molecule's collection and then assigns its material; since the
collection stores a reference to that same object, the post-state equals adding the
already-updated atom. -/
def atomStep (mol : MolObj) (ctr : ℕ) (sline : String) : Except PyError (MolObj × ℕ) :=
  let cline := pySplit sline
  if 5 ≤ cline.length then
    match pyFloat (cline.getD 2 ""), pyFloat (cline.getD 3 ""), pyFloat (cline.getD 4 "") with
    | some x, some y, some z =>
      match pyInt (cline.getD 0 "") with
      | none => .error .valueError
      | some idv =>
        let atom0 : Atom :=
          { objId := ctr, id := idv, element := parse_element_string (cline.getD 1 ""),
            location := (x, y, z), materials := [] }
        let r := check_element_and_assign_material mol atom0 (ctr + 1)
        .ok ({ r.mol with atoms := (molviz_add_atom r.mol.atoms r.obj).1 }, r.ctr)
    | _, _, _ => .error .valueError
  else .ok (mol, ctr)

/-- Result of the bond branch of the main extraction loop. -/
inductive BondOut
  | ok (mol : MolObj) (ctr : ℕ)
  | degenerate
  | err (e : PyError)

/-- The bond branch of the main extraction loop (`if bonds:` in `execute`), applied
to the stripped line.  When either atom lookup yields `None`, reading `.location`
on it raises `AttributeError`.  When `create_bond` returns `None` the code reports
corrupted coordinates, cleans the molecule and returns.  The bond id is parsed
after the cylinder object is created. -/
noncomputable def bondStep (mol : MolObj) (ctr : ℕ) (sline : String) : BondOut :=
  let cline := pySplit sline
  if 4 ≤ cline.length then
    match pyInt (cline.getD 1 ""), pyInt (cline.getD 2 "") with
    | some sid, some tid =>
      match find_atom_from_id mol.atoms sid, find_atom_from_id mol.atoms tid with
      | some s, some t =>
        match create_bond (q3r s.location) (q3r t.location) (8 / 100 : ℝ) with
        | none => .degenerate
        | some pose =>
          match pyInt (cline.getD 0 "") with
          | none => .err .valueError
          | some bid =>
            .ok { mol with bonds := mol.bonds ++
                  [{ objId := ctr, id := bid, source := s, target := t, pose := pose }] }
              (ctr + 1)
      | _, _ => .err .attributeError
    | _, _ => .err .valueError
  else .ok mol ctr

/-- How one extraction pass of `execute` ends: end of input (`starting_line` is left
unchanged), a break at relative line index `j` when a molecule marker is seen after
bonds started (`starting_line` advances by `j`), the degenerate-bond early return,
or an uncaught Python exception. -/
inductive ScanExit
  | eof
  | brk (j : ℕ)
  | degenerate
  | err (e : PyError)
deriving DecidableEq, Repr

/-- State returned by one extraction pass: the molecule object as built so far, the
object/material creation counter, and how the pass ended. -/
structure ScanRes where
  mol : MolObj
  ctr : ℕ
  exit : ScanExit

/-- The main extraction loop of `execute` over the lines of one pass, with `j` the
relative index of the current line.  Mirrors the flag handling of the code: the
molecule marker only ends the pass once bonds have started; the atom and bond
branches are both tried on a non-marker line (the flags select them). -/
noncomputable def scanLoop : List String → ℕ → MolObj → Bool → Bool → ℕ → ScanRes
  | [], _, mol, _, _, ctr => ⟨mol, ctr, .eof⟩
  | line :: rest, j, mol, atomsF, bondsF, ctr =>
    let sline := pyStrip line
    if strContains sline "@<TRIPOS>MOLECULE" && bondsF then ⟨mol, ctr, .brk j⟩
    else if strContains sline "@<TRIPOS>ATOM" then scanLoop rest (j + 1) mol true bondsF ctr
    else if strContains sline "@<TRIPOS>BOND" then scanLoop rest (j + 1) mol false true ctr
    else
      match (if atomsF then atomStep mol ctr sline else .ok (mol, ctr)) with
      | .error e => ⟨mol, ctr, .err e⟩
      | .ok (mol1, ctr1) =>
        match (if bondsF then bondStep mol1 ctr1 sline else .ok mol1 ctr1) with
        | .ok mol2 ctr2 => scanLoop rest (j + 1) mol2 atomsF bondsF ctr2
        | .degenerate => ⟨mol1, ctr1, .degenerate⟩
        | .err e => ⟨mol1, ctr1, .err e⟩

/-- Which report `execute` ends with. -/
inductive Report
  | noMoleculesFound
  | corruptedCoordinates
  | moleculeCreated
deriving DecidableEq, Repr

/-- How the import operation ends: a `{'FINISHED'}` return with its final report,
or an uncaught Python exception propagating out of `execute`. -/
inductive Outcome
  | finished (r : Report)
  | raised (e : PyError)
deriving DecidableEq, Repr

/-- Final state of one import: the molecule objects in the scene and the outcome. -/
structure ExecResult where
  scene : List MolObj
  outcome : Outcome

/-- The fresh molecule empty created at the start of each pass, named `"Molecule"`
when the operator's name property is empty. -/
def mkEmpty (name : String) (ctr : ℕ) : MolObj :=
  { objId := ctr, name := if name.length = 0 then "Molecule" else name,
    atoms := [], bonds := [], element_materials := [] }

/-- The colour-sharing step at the start of each pass of `execute`: when
`same_colors` is set, run the element pre-pass from the resume offset and then the
material import from the scene; otherwise the fresh empty is used as is. -/
def seedMolecule (lines_from : List String) (same_colors : Bool) (scene : List MolObj)
    (empty : MolObj) : Except PyError MolObj :=
  if same_colors then
    match list_materials_in_molecule lines_from with
    | .error e => .error e
    | .ok els => import_materials scene empty els
  else .ok empty

/-- The per-molecule loop of `execute`: create the empty, optionally run the
element pre-pass and material import, then run one extraction pass resuming from
`starting_line`.  A degenerate bond deletes the current molecule and returns; an
uncaught exception leaves the partial molecule in the scene and aborts the whole
operator; otherwise the pass's molecule joins the scene and the next molecule is
processed. -/
noncomputable def execLoop (lines : List String) (same_colors : Bool) (name : String) :
    ℕ → ℕ → List MolObj → ℕ → ExecResult
  | 0, _, scene, _ => ⟨scene, .finished .moleculeCreated⟩
  | n + 1, starting_line, scene, ctr =>
    let empty := mkEmpty name ctr
    match seedMolecule (lines.drop starting_line) same_colors scene empty with
    | .error e => ⟨scene ++ [empty], .raised e⟩
    | .ok mol0 =>
      match scanLoop (lines.drop starting_line) 0 mol0 false false (ctr + 1) with
      | ⟨molF, ctrF, .brk jv⟩ =>
          execLoop lines same_colors name n (starting_line + jv) (scene ++ [molF]) ctrF
      | ⟨molF, ctrF, .eof⟩ =>
          execLoop lines same_colors name n starting_line (scene ++ [molF]) ctrF
      | ⟨molF, _, .err e⟩ => ⟨scene ++ [molF], .raised e⟩
      | ⟨_, _, .degenerate⟩ => ⟨scene, .finished .corruptedCoordinates⟩

/-- `MoleculeVisualizer_ImportMolecule.execute` on an already-read list of lines
(file access is an external collaborator): count the molecule markers, report
`NoMoleculesFound` when there are none, and otherwise run one extraction pass per
counted marker.  `scene0` is the list of molecule objects already in the scene and
`ctr0` the object/material creation counter. -/
noncomputable def execute (lines : List String) (same_colors : Bool) (name : String)
    (scene0 : List MolObj) (ctr0 : ℕ) : ExecResult :=
  let num_mol := lines.countP (fun l => strContains l "@<TRIPOS>MOLECULE")
  if num_mol = 0 then ⟨scene0, .finished .noMoleculesFound⟩
  else execLoop lines same_colors name num_mol 0 scene0 ctr0

/-- The `i`-th whitespace-separated field of the stripped line (empty when absent). -/
def fieldAt (l : String) (i : ℕ) : String := (pySplit (pyStrip l)).getD i ""

/-- The observable content of an atom object: its file id, element symbol, and
location (object identity and materials abstracted away). -/
abbrev AtomRec := ℤ × String × (ℚ × ℚ × ℚ)

/-- The observable content of an atom object. -/
def atomKey (a : Atom) : AtomRec := (a.id, a.element, a.location)

/-- The atom record an atom line denotes: id field, normalized element, and the
three coordinate fields. -/
def atomRecOf (l : String) : AtomRec :=
  ((pyInt (fieldAt l 0)).getD 0, parse_element_string (fieldAt l 1),
    ((pyFloat (fieldAt l 2)).getD 0, (pyFloat (fieldAt l 3)).getD 0, (pyFloat (fieldAt l 4)).getD 0))

/-- First atom record with the given id, mirroring `find_atom_from_id`. -/
def resolveRec : List AtomRec → ℤ → Option AtomRec
  | [], _ => none
  | r :: rest, i => if r.1 = i then some r else resolveRec rest i

/-- The observable content of a bond object: its file id and the records of its
source and target atoms. -/
def bondKey (b : BondObj) : ℤ × Option AtomRec × Option AtomRec :=
  (b.id, some (atomKey b.source), some (atomKey b.target))

/-- The bond record a bond line denotes relative to a list of atom records. -/
def bondRecOf (recs : List AtomRec) (l : String) : ℤ × Option AtomRec × Option AtomRec :=
  ((pyInt (fieldAt l 0)).getD 0, resolveRec recs ((pyInt (fieldAt l 1)).getD 0),
    resolveRec recs ((pyInt (fieldAt l 2)).getD 0))

/-- A line free of section markers both stripped (as the extraction loops test) and
raw (as the molecule count tests). -/
def NoMarkers (l : String) : Prop :=
  strContains (pyStrip l) "@<TRIPOS>MOLECULE" = false ∧
  strContains (pyStrip l) "@<TRIPOS>ATOM" = false ∧
  strContains (pyStrip l) "@<TRIPOS>BOND" = false ∧
  strContains l "@<TRIPOS>MOLECULE" = false

/-- A line the scanners skip while no section is active: neither an atom nor a bond
marker, and not counted as a molecule marker. -/
def SkipWF (l : String) : Prop :=
  strContains (pyStrip l) "@<TRIPOS>ATOM" = false ∧
  strContains (pyStrip l) "@<TRIPOS>BOND" = false ∧
  strContains l "@<TRIPOS>MOLECULE" = false

/-- A well-formed atom line: no markers, at least five fields, an integer id field
and three float coordinate fields. -/
def AtomLineWF (l : String) : Prop :=
  NoMarkers l ∧ 5 ≤ (pySplit (pyStrip l)).length ∧
  (pyInt (fieldAt l 0)).isSome = true ∧ (pyFloat (fieldAt l 2)).isSome = true ∧
  (pyFloat (fieldAt l 3)).isSome = true ∧ (pyFloat (fieldAt l 4)).isSome = true

/-- A well-formed bond line relative to the atom records built so far: no markers,
at least four fields, three integer fields, both endpoint ids resolving, and the
resolved endpoints at distinct locations. -/
def BondLineWF (recs : List AtomRec) (l : String) : Prop :=
  NoMarkers l ∧ 4 ≤ (pySplit (pyStrip l)).length ∧
  (pyInt (fieldAt l 0)).isSome = true ∧ (pyInt (fieldAt l 1)).isSome = true ∧
  (pyInt (fieldAt l 2)).isSome = true ∧
  (resolveRec recs ((pyInt (fieldAt l 1)).getD 0)).isSome = true ∧
  (resolveRec recs ((pyInt (fieldAt l 2)).getD 0)).isSome = true ∧
  (resolveRec recs ((pyInt (fieldAt l 1)).getD 0)).map (fun r => r.2.2) ≠
    (resolveRec recs ((pyInt (fieldAt l 2)).getD 0)).map (fun r => r.2.2)

/-- A bond line whose endpoints resolve to atoms at the same location (the
degenerate-bond case). -/
def DegenerateBondLine (recs : List AtomRec) (l : String) : Prop :=
  NoMarkers l ∧ 4 ≤ (pySplit (pyStrip l)).length ∧
  (pyInt (fieldAt l 1)).isSome = true ∧ (pyInt (fieldAt l 2)).isSome = true ∧
  (resolveRec recs ((pyInt (fieldAt l 1)).getD 0)).isSome = true ∧
  (resolveRec recs ((pyInt (fieldAt l 2)).getD 0)).isSome = true ∧
  (resolveRec recs ((pyInt (fieldAt l 1)).getD 0)).map (fun r => r.2.2) =
    (resolveRec recs ((pyInt (fieldAt l 2)).getD 0)).map (fun r => r.2.2)

/-- A bond line with a dangling reference: at least one endpoint id resolves to no
atom built so far. -/
def UnresolvedBondLine (recs : List AtomRec) (l : String) : Prop :=
  NoMarkers l ∧ 4 ≤ (pySplit (pyStrip l)).length ∧
  (pyInt (fieldAt l 1)).isSome = true ∧ (pyInt (fieldAt l 2)).isSome = true ∧
  (resolveRec recs ((pyInt (fieldAt l 1)).getD 0) = none ∨
    resolveRec recs ((pyInt (fieldAt l 2)).getD 0) = none)

/-- A tolerated short line: no markers and fewer than four fields. -/
def ShortLineWF (l : String) : Prop := NoMarkers l ∧ (pySplit (pyStrip l)).length < 4

/-- A line with fewer than five fields and no atom/bond markers: skipped by the
atom branch whether or not a molecule marker occurs on it. -/
def AtomShortWF (l : String) : Prop :=
  strContains (pyStrip l) "@<TRIPOS>ATOM" = false ∧
  strContains (pyStrip l) "@<TRIPOS>BOND" = false ∧
  (pySplit (pyStrip l)).length < 5

/-- A molecule marker line: contains the molecule marker (stripped and raw) and no
atom or bond marker. -/
def MolMarkerLine (l : String) : Prop :=
  strContains (pyStrip l) "@<TRIPOS>MOLECULE" = true ∧
  strContains l "@<TRIPOS>MOLECULE" = true ∧
  strContains (pyStrip l) "@<TRIPOS>ATOM" = false ∧
  strContains (pyStrip l) "@<TRIPOS>BOND" = false

/-- An atom marker line: contains the atom marker and no molecule marker. -/
def AtomMarkerLine (l : String) : Prop :=
  strContains (pyStrip l) "@<TRIPOS>ATOM" = true ∧
  strContains (pyStrip l) "@<TRIPOS>MOLECULE" = false ∧
  strContains l "@<TRIPOS>MOLECULE" = false

/-- A bond marker line: contains the bond marker, and neither the atom nor the
molecule marker. -/
def BondMarkerLine (l : String) : Prop :=
  strContains (pyStrip l) "@<TRIPOS>BOND" = true ∧
  strContains (pyStrip l) "@<TRIPOS>ATOM" = false ∧
  strContains (pyStrip l) "@<TRIPOS>MOLECULE" = false ∧
  strContains l "@<TRIPOS>MOLECULE" = false

/-- Atom objects that agree on their observable content (id, element, location). -/
def AtomS (a b : Atom) : Prop := atomKey a = atomKey b

/-- Molecule objects that are structural duplicates: same name, the same sequence of
atom contents, and the same sequence of bond contents. -/
def MolS (m n : MolObj) : Prop :=
  m.name = n.name ∧ m.atoms.map atomKey = n.atoms.map atomKey ∧
  m.bonds.map bondKey = n.bonds.map bondKey

/-- Object ids of all atoms in the collection are below the counter (freshness). -/
def AtomsFresh (atoms : List Atom) (ctr : ℕ) : Prop := ∀ a ∈ atoms, a.objId < ctr

instance (l : String) : Decidable (NoMarkers l) := by
  unfold NoMarkers
  infer_instance

instance (l : String) : Decidable (SkipWF l) := by
  unfold SkipWF
  infer_instance

instance (l : String) : Decidable (AtomLineWF l) := by
  unfold AtomLineWF
  infer_instance

instance (recs : List AtomRec) (l : String) : Decidable (BondLineWF recs l) := by
  unfold BondLineWF
  infer_instance

instance (recs : List AtomRec) (l : String) : Decidable (DegenerateBondLine recs l) := by
  unfold DegenerateBondLine
  infer_instance

instance (recs : List AtomRec) (l : String) : Decidable (UnresolvedBondLine recs l) := by
  unfold UnresolvedBondLine
  infer_instance

instance (l : String) : Decidable (ShortLineWF l) := by
  unfold ShortLineWF
  infer_instance

instance (l : String) : Decidable (AtomShortWF l) := by
  unfold AtomShortWF
  infer_instance

instance (l : String) : Decidable (MolMarkerLine l) := by
  unfold MolMarkerLine
  infer_instance

instance (l : String) : Decidable (AtomMarkerLine l) := by
  unfold AtomMarkerLine
  infer_instance

instance (l : String) : Decidable (BondMarkerLine l) := by
  unfold BondMarkerLine
  infer_instance

/-- The two endpoints viewed as a Euclidean point, to compare the cylinder depth
with the genuine Euclidean distance. -/
noncomputable def pt3 (p : ℝ × ℝ × ℝ) : EuclideanSpace ℝ (Fin 3) := ![p.1, p.2.1, p.2.2]

/-- Reference definition following the spec's words for `import_from`: walk the
candidate entries in order and copy an entry exactly when its symbol is allowed and
not yet present.  Used to characterise `import_materials`. -/
def firstWins : List ElementMaterial → List String → List ElementMaterial → List ElementMaterial
  | [], _, acc => acc
  | e :: rest, allowed, acc =>
    if e.element ∈ allowed ∧ e.element ∉ acc.map (fun x => x.element) then
      firstWins rest allowed (acc ++ [e])
    else firstWins rest allowed acc

/-- The candidate entries `import_materials` walks, in order: the element materials
with a BSDF node of every scene molecule that has atoms. -/
def validEntries (sceneObjs : List MolObj) : List ElementMaterial :=
  (sceneObjs.filter (fun x => !x.atoms.isEmpty)).flatMap
    (fun m => m.element_materials.filter (fun x => x.material.hasBSDF))

/-- First uppercase letter of the character list together with the characters
after it, if any: the spec's "the first uppercase letter encountered becomes the
symbol's first character". -/
def specFirstUpper : List Char → Option (Char × List Char)
  | [] => none
  | c :: cs => if c.isUpper then some (c, cs) else specFirstUpper cs

/-- First lowercase letter of the character list, if any: the spec's "the next
lowercase letter encountered (if any) becomes the second character". -/
def specFirstLower : List Char → Option Char
  | [] => none
  | c :: cs => if c.isLower then some c else specFirstLower cs

/-- Reference definition following the spec's words for `normalize`: drop all
ASCII digits, take the first uppercase letter as the first character, and only
then the next lowercase letter as the second character, stopping there. -/
def normalizeSpec (s : String) : String :=
  match specFirstUpper (s.toList.filter (fun c => !c.isDigit)) with
  | none => ""
  | some (c, rest) =>
    match specFirstLower rest with
    | none => String.singleton c
    | some d => (String.singleton c).push d

/-- A two-molecule scene used to exhibit the material import: both molecules have
atoms and offer an entry for "C" (with different materials), the first also offers
"O" and the second also offers "N". -/
def c8Scene : List MolObj :=
  [{ objId := 0, name := "A", atoms := [⟨0, 1, "C", (0, 0, 0), []⟩], bonds := [],
     element_materials := [{ element := "C", material := ⟨3, true⟩ },
       { element := "O", material := ⟨4, true⟩ }] },
   { objId := 1, name := "B", atoms := [⟨1, 1, "C", (0, 0, 0), []⟩], bonds := [],
     element_materials := [{ element := "C", material := ⟨7, true⟩ },
       { element := "N", material := ⟨8, true⟩ }] }]

/-! ### Geometry of `create_bond` -/

theorem sq3_eq_zero_iff (a b c : ℝ) : a ^ 2 + b ^ 2 + c ^ 2 = 0 ↔ a = 0 ∧ b = 0 ∧ c = 0 := by
  constructor
  · intro h
    have ha : a ^ 2 = 0 := le_antisymm (by nlinarith [sq_nonneg b, sq_nonneg c]) (sq_nonneg a)
    have hb : b ^ 2 = 0 := le_antisymm (by nlinarith [sq_nonneg a, sq_nonneg c]) (sq_nonneg b)
    have hc : c ^ 2 = 0 := le_antisymm (by nlinarith [sq_nonneg a, sq_nonneg b]) (sq_nonneg c)
    exact ⟨pow_eq_zero_iff two_ne_zero |>.mp ha, pow_eq_zero_iff two_ne_zero |>.mp hb,
      pow_eq_zero_iff two_ne_zero |>.mp hc⟩
  · rintro ⟨rfl, rfl, rfl⟩
    ring

theorem bondDist_eq_zero_iff (s t : ℝ × ℝ × ℝ) :
    Real.sqrt ((t.1 - s.1) ^ 2 + (t.2.1 - s.2.1) ^ 2 + (t.2.2 - s.2.2) ^ 2) = 0 ↔ s = t := by
  rw [Real.sqrt_eq_zero']
  constructor
  · intro h
    have h0 : (t.1 - s.1) ^ 2 + (t.2.1 - s.2.1) ^ 2 + (t.2.2 - s.2.2) ^ 2 = 0 :=
      le_antisymm h (by positivity)
    obtain ⟨h1, h2, h3⟩ := (sq3_eq_zero_iff _ _ _).mp h0
    have e1 : s.1 = t.1 := by linarith
    have e2 : s.2.1 = t.2.1 := by linarith
    have e3 : s.2.2 = t.2.2 := by linarith
    exact Prod.ext_iff.mpr ⟨e1, Prod.ext_iff.mpr ⟨e2, e3⟩⟩
  · rintro rfl
    simp

theorem create_bond_eq_none_iff (s t : ℝ × ℝ × ℝ) (r : ℝ) :
    create_bond s t r = none ↔ s = t := by
  simp only [create_bond]
  split_ifs with h
  · simp [bondDist_eq_zero_iff s t |>.mp h]
  · have hne : ¬s = t := fun hst => h ((bondDist_eq_zero_iff s t).mpr hst)
    simp [hne]

theorem create_bond_self (p : ℝ × ℝ × ℝ) (r : ℝ) : create_bond p p r = none :=
  (create_bond_eq_none_iff p p r).mpr rfl

theorem create_bond_eq_some (s t : ℝ × ℝ × ℝ) (r : ℝ) (h : s ≠ t) :
    create_bond s t r = some
      { radius := r
        depth := Real.sqrt ((t.1 - s.1) ^ 2 + (t.2.1 - s.2.1) ^ 2 + (t.2.2 - s.2.2) ^ 2)
        location := ((t.1 - s.1) / 2 + s.1, (t.2.1 - s.2.1) / 2 + s.2.1,
          (t.2.2 - s.2.2) / 2 + s.2.2)
        rotY := Real.arccos ((t.2.2 - s.2.2) /
          Real.sqrt ((t.1 - s.1) ^ 2 + (t.2.1 - s.2.1) ^ 2 + (t.2.2 - s.2.2) ^ 2))
        rotZ := atan2 (t.2.1 - s.2.1) (t.1 - s.1) } := by
  simp only [create_bond]
  rw [if_neg (fun h0 => h ((bondDist_eq_zero_iff s t).mp h0))]

theorem dist_pt3 (s t : ℝ × ℝ × ℝ) :
    dist (pt3 s) (pt3 t) =
      Real.sqrt ((t.1 - s.1) ^ 2 + (t.2.1 - s.2.1) ^ 2 + (t.2.2 - s.2.2) ^ 2) := by
  rw [EuclideanSpace.dist_eq, Fin.sum_univ_three]
  congr 1
  simp only [pt3, Matrix.cons_val_zero, Matrix.cons_val_one, Matrix.head_cons,
    Matrix.cons_val_two, Matrix.tail_cons, Real.dist_eq, sq_abs]
  ring

theorem q3r_inj {p q : ℚ × ℚ × ℚ} (h : q3r p = q3r q) : p = q := by
  simp only [q3r, Prod.ext_iff] at h
  obtain ⟨h1, h2, h3⟩ := h
  exact Prod.ext_iff.mpr ⟨by exact_mod_cast h1, Prod.ext_iff.mpr
    ⟨by exact_mod_cast h2, by exact_mod_cast h3⟩⟩

/-! ### The element-symbol parser -/

theorem elementLoop_length_le (cs : List Char) (first : String) (h : first.length ≤ 1) :
    (elementLoop cs first).length ≤ 2 := by
  induction cs generalizing first with
  | nil => simpa [elementLoop] using h.trans one_le_two
  | cons c cs ih =>
    unfold elementLoop
    split_ifs with h1 h2
    · exact ih _ (by simp)
    · simpa [String.length_push] using Nat.add_le_add_right h 1
    · exact ih _ h

theorem parse_element_string_length_le (s : String) : (parse_element_string s).length ≤ 2 :=
  elementLoop_length_le _ _ (by simp)

/-! ### The colour registry -/

theorem find_material_isSome_of_mem (coll : List ElementMaterial) (el : String)
    (h : el ∈ coll.map (fun x => x.element)) :
    ∃ m, find_material_from_element coll el = some m := by
  induction coll with
  | nil => simp at h
  | cons e rest ih =>
    by_cases he : e.element = el
    · exact ⟨e.material, by simp [find_material_from_element, he]⟩
    · obtain ⟨m, hm⟩ := ih (by
        rcases List.mem_map.mp h with ⟨x, hx, hxe⟩
        rcases List.mem_cons.mp hx with rfl | hx'
        · exact absurd hxe he
        · exact List.mem_map.mpr ⟨x, hx', hxe⟩)
      exact ⟨m, by simp [find_material_from_element, he, hm]⟩

theorem find_material_append_right (coll : List ElementMaterial) (e : ElementMaterial)
    (h : e.element ∉ coll.map (fun x => x.element)) :
    find_material_from_element (coll ++ [e]) e.element = some e.material := by
  induction coll with
  | nil => simp [find_material_from_element]
  | cons e0 rest ih =>
    have h0 : e0.element ≠ e.element := by
      intro he
      exact h (List.mem_map.mpr ⟨e0, by simp, he⟩)
    simp only [List.cons_append, find_material_from_element, if_neg h0]
    exact ih (fun hm => h (by
      rcases List.mem_map.mp hm with ⟨x, hx, hxe⟩
      exact List.mem_map.mpr ⟨x, by simp [hx], hxe⟩))

theorem molviz_add_element_material_not_mem (coll : List ElementMaterial)
    (elmat : String × Material) (h : elmat.1 ∉ coll.map (fun x => x.element)) :
    (molviz_add_element_material coll elmat).1 = coll ++ [⟨elmat.1, elmat.2⟩] := by
  have hc : ¬(coll.any (fun el => el.element = elmat.1) = true) := by
    simp only [List.any_eq_true, decide_eq_true_eq]
    rintro ⟨x, hx, he⟩
    exact h (List.mem_map.mpr ⟨x, hx, he⟩)
  unfold molviz_add_element_material
  rw [if_neg hc]

theorem molviz_add_atom_not_mem (coll : List Atom) (obj : Atom) (h : obj ∉ coll) :
    (molviz_add_atom coll obj).1 = coll ++ [obj] := by
  have hc : ¬(coll.any (fun el => el = obj) = true) := by
    simp only [List.any_eq_true, decide_eq_true_eq]
    rintro ⟨x, hx, rfl⟩
    exact h hx
  unfold molviz_add_atom
  rw [if_neg hc]

theorem check_element_mol_atoms (mol : MolObj) (obj : Atom) (ctr : ℕ) :
    (check_element_and_assign_material mol obj ctr).mol.atoms = mol.atoms := by
  simp only [check_element_and_assign_material]
  split_ifs <;> rfl

theorem check_element_mol_bonds (mol : MolObj) (obj : Atom) (ctr : ℕ) :
    (check_element_and_assign_material mol obj ctr).mol.bonds = mol.bonds := by
  simp only [check_element_and_assign_material]
  split_ifs <;> rfl

theorem check_element_mol_name (mol : MolObj) (obj : Atom) (ctr : ℕ) :
    (check_element_and_assign_material mol obj ctr).mol.name = mol.name := by
  simp only [check_element_and_assign_material]
  split_ifs <;> rfl

theorem check_element_obj_key (mol : MolObj) (obj : Atom) (ctr : ℕ) :
    atomKey (check_element_and_assign_material mol obj ctr).obj = atomKey obj := by
  simp only [check_element_and_assign_material]
  split_ifs <;> rfl

theorem check_element_obj_objId (mol : MolObj) (obj : Atom) (ctr : ℕ) :
    (check_element_and_assign_material mol obj ctr).obj.objId = obj.objId := by
  simp only [check_element_and_assign_material]
  split_ifs <;> rfl

theorem check_element_ctr_le (mol : MolObj) (obj : Atom) (ctr : ℕ) :
    ctr ≤ (check_element_and_assign_material mol obj ctr).ctr ∧
      (check_element_and_assign_material mol obj ctr).ctr ≤ ctr + 1 := by
  simp only [check_element_and_assign_material]
  split_ifs <;> simp

/-! ### The atom and bond branches of the extraction loop -/

theorem atomStep_short (mol : MolObj) (ctr : ℕ) (sline : String)
    (h : (pySplit sline).length < 5) : atomStep mol ctr sline = .ok (mol, ctr) := by
  simp only [atomStep]
  rw [if_neg (by omega)]

theorem atomStep_wf (mol : MolObj) (ctr : ℕ) (l : String) (hl : AtomLineWF l)
    (hf : AtomsFresh mol.atoms ctr) :
    ∃ mol' ctr', atomStep mol ctr (pyStrip l) = .ok (mol', ctr') ∧
      mol'.atoms.map atomKey = mol.atoms.map atomKey ++ [atomRecOf l] ∧
      mol'.bonds = mol.bonds ∧ mol'.name = mol.name ∧
      AtomsFresh mol'.atoms ctr' ∧ ctr < ctr' := by
  obtain ⟨-, hlen, hi0, hx2, hx3, hx4⟩ := hl
  rw [Option.isSome_iff_exists] at hi0 hx2 hx3 hx4
  obtain ⟨idv, hidv⟩ := hi0
  obtain ⟨x, hx⟩ := hx2
  obtain ⟨y, hy⟩ := hx3
  obtain ⟨z, hz⟩ := hx4
  simp only [fieldAt] at hidv hx hy hz
  set atom0 : Atom :=
    { objId := ctr, id := idv,
      element := parse_element_string ((pySplit (pyStrip l)).getD 1 ""),
      location := (x, y, z), materials := [] } with hatom0
  set r := check_element_and_assign_material mol atom0 (ctr + 1) with hrdef
  have hratoms : r.mol.atoms = mol.atoms := check_element_mol_atoms mol atom0 (ctr + 1)
  have hrbonds : r.mol.bonds = mol.bonds := check_element_mol_bonds mol atom0 (ctr + 1)
  have hrname : r.mol.name = mol.name := check_element_mol_name mol atom0 (ctr + 1)
  have hrkey : atomKey r.obj = atomKey atom0 := check_element_obj_key mol atom0 (ctr + 1)
  have hrobjId : r.obj.objId = ctr := check_element_obj_objId mol atom0 (ctr + 1)
  have hrctr : ctr + 1 ≤ r.ctr := (check_element_ctr_le mol atom0 (ctr + 1)).1
  have hnotmem : r.obj ∉ r.mol.atoms := by
    rw [hratoms]
    intro hmem
    have hlt := hf r.obj hmem
    rw [hrobjId] at hlt
    exact lt_irrefl _ hlt
  have hadd : (molviz_add_atom r.mol.atoms r.obj).1 = mol.atoms ++ [r.obj] := by
    rw [molviz_add_atom_not_mem _ _ hnotmem, hratoms]
  refine ⟨{ r.mol with atoms := (molviz_add_atom r.mol.atoms r.obj).1 }, r.ctr,
    ?_, ?_, ?_, ?_, ?_, ?_⟩
  · simp only [atomStep]
    rw [if_pos hlen, hx, hy, hz, hidv]
  · rw [hadd, List.map_append, List.map_singleton, hrkey]
    simp only [atomKey, atomRecOf, fieldAt, hidv, hx, hy, hz, Option.getD_some]
  · exact hrbonds
  · exact hrname
  · intro a ha
    rw [hadd] at ha
    rcases List.mem_append.mp ha with ha | ha
    · exact lt_of_lt_of_le (lt_of_lt_of_le (hf a ha) (Nat.le_succ ctr)) hrctr
    · rw [List.mem_singleton.mp ha, hrobjId]
      omega
  · omega

theorem resolveRec_map_atomKey (atoms : List Atom) (i : ℤ) :
    resolveRec (atoms.map atomKey) i = (find_atom_from_id atoms i).map atomKey := by
  induction atoms with
  | nil => rfl
  | cons a rest ih =>
    by_cases h : a.id = i
    · simp [resolveRec, find_atom_from_id, atomKey, h]
    · simp [resolveRec, find_atom_from_id, atomKey, h, ih]

theorem bondStep_short (mol : MolObj) (ctr : ℕ) (sline : String)
    (h : (pySplit sline).length < 4) : bondStep mol ctr sline = .ok mol ctr := by
  simp only [bondStep]
  rw [if_neg (by omega)]

theorem bondStep_wf (mol : MolObj) (ctr : ℕ) (l : String)
    (hl : BondLineWF (mol.atoms.map atomKey) l) :
    ∃ b, bondStep mol ctr (pyStrip l) =
        .ok { mol with bonds := mol.bonds ++ [b] } (ctr + 1) ∧
      bondKey b = bondRecOf (mol.atoms.map atomKey) l := by
  obtain ⟨-, hlen, h0, h1, h2, hs1, hs2, hne⟩ := hl
  rw [Option.isSome_iff_exists] at h0 h1 h2 hs1 hs2
  obtain ⟨bid, hbid⟩ := h0
  obtain ⟨sid, hsid⟩ := h1
  obtain ⟨tid, htid⟩ := h2
  obtain ⟨r1, hr1⟩ := hs1
  obtain ⟨r2, hr2⟩ := hs2
  simp only [fieldAt] at hbid hsid htid hr1 hr2 hne
  rw [hr1, hr2, Option.map_some', Option.map_some'] at hne
  rw [hsid, Option.getD_some, resolveRec_map_atomKey] at hr1
  rw [htid, Option.getD_some, resolveRec_map_atomKey] at hr2
  obtain ⟨s, hs, hskey⟩ := Option.map_eq_some'.mp hr1
  obtain ⟨t, ht, htkey⟩ := Option.map_eq_some'.mp hr2
  have hloc : s.location ≠ t.location := by
    intro he
    apply hne
    rw [← hskey, ← htkey]
    simp only [atomKey]
    rw [he]
  have hq : q3r s.location ≠ q3r t.location := fun he => hloc (q3r_inj he)
  obtain ⟨pose, hcb⟩ : ∃ p, create_bond (q3r s.location) (q3r t.location) (8 / 100 : ℝ) = some p :=
    ⟨_, create_bond_eq_some _ _ _ hq⟩
  refine ⟨{ objId := ctr, id := bid, source := s, target := t, pose := pose }, ?_, ?_⟩
  · simp only [bondStep]
    rw [if_pos hlen]
    simp only [hsid, htid, hs, ht, hcb, hbid]
  · simp only [bondKey, bondRecOf, fieldAt, hbid, hsid, htid, Option.getD_some,
      resolveRec_map_atomKey, hs, ht, Option.map_some', hskey, htkey]

theorem bondStep_unresolved (mol : MolObj) (ctr : ℕ) (l : String)
    (hl : UnresolvedBondLine (mol.atoms.map atomKey) l) :
    bondStep mol ctr (pyStrip l) = .err .attributeError := by
  obtain ⟨-, hlen, h1, h2, hnone⟩ := hl
  rw [Option.isSome_iff_exists] at h1 h2
  obtain ⟨sid, hsid⟩ := h1
  obtain ⟨tid, htid⟩ := h2
  simp only [fieldAt] at hsid htid hnone
  rw [hsid, Option.getD_some, resolveRec_map_atomKey] at hnone
  rw [htid, Option.getD_some, resolveRec_map_atomKey] at hnone
  simp only [bondStep]
  rw [if_pos hlen]
  simp only [hsid, htid]
  rcases hnone with hn | hn
  · simp only [Option.map_eq_none'.mp hn]
  · simp only [Option.map_eq_none'.mp hn]
    cases find_atom_from_id mol.atoms sid <;> rfl

theorem bondStep_degenerate (mol : MolObj) (ctr : ℕ) (l : String)
    (hl : DegenerateBondLine (mol.atoms.map atomKey) l) :
    bondStep mol ctr (pyStrip l) = .degenerate := by
  obtain ⟨-, hlen, h1, h2, hs1, hs2, heq⟩ := hl
  rw [Option.isSome_iff_exists] at h1 h2 hs1 hs2
  obtain ⟨sid, hsid⟩ := h1
  obtain ⟨tid, htid⟩ := h2
  obtain ⟨r1, hr1⟩ := hs1
  obtain ⟨r2, hr2⟩ := hs2
  simp only [fieldAt] at hsid htid hr1 hr2 heq
  rw [hr1, hr2, Option.map_some', Option.map_some'] at heq
  rw [hsid, Option.getD_some, resolveRec_map_atomKey] at hr1
  rw [htid, Option.getD_some, resolveRec_map_atomKey] at hr2
  obtain ⟨s, hs, hskey⟩ := Option.map_eq_some'.mp hr1
  obtain ⟨t, ht, htkey⟩ := Option.map_eq_some'.mp hr2
  have hloc : s.location = t.location := by
    have := heq
    rw [← hskey, ← htkey] at this
    simpa [atomKey] using this
  simp only [bondStep]
  rw [if_pos hlen]
  simp only [hsid, htid, hs, ht, hloc, create_bond_self]

/-! ### Composition lemmas for the extraction loop -/

theorem scanLoop_nil (j : ℕ) (mol : MolObj) (aF bF : Bool) (ctr : ℕ) :
    scanLoop [] j mol aF bF ctr = ⟨mol, ctr, .eof⟩ := rfl

theorem scanLoop_cons_break (l : String) (rest : List String) (j : ℕ) (mol : MolObj)
    (aF : Bool) (ctr : ℕ) (hM : strContains (pyStrip l) "@<TRIPOS>MOLECULE" = true) :
    scanLoop (l :: rest) j mol aF true ctr = ⟨mol, ctr, .brk j⟩ := by
  simp [scanLoop, hM]

theorem scanLoop_cons_atomMarker (l : String) (rest : List String) (j : ℕ) (mol : MolObj)
    (aF bF : Bool) (ctr : ℕ)
    (hA : strContains (pyStrip l) "@<TRIPOS>ATOM" = true)
    (hMb : strContains (pyStrip l) "@<TRIPOS>MOLECULE" = false ∨ bF = false) :
    scanLoop (l :: rest) j mol aF bF ctr = scanLoop rest (j + 1) mol true bF ctr := by
  have hcond : (strContains (pyStrip l) "@<TRIPOS>MOLECULE" && bF) = false := by
    rcases hMb with h | h <;> simp [h]
  simp [scanLoop, hcond, hA]

theorem scanLoop_cons_bondMarker (l : String) (rest : List String) (j : ℕ) (mol : MolObj)
    (aF bF : Bool) (ctr : ℕ)
    (hB : strContains (pyStrip l) "@<TRIPOS>BOND" = true)
    (hA : strContains (pyStrip l) "@<TRIPOS>ATOM" = false)
    (hMb : strContains (pyStrip l) "@<TRIPOS>MOLECULE" = false ∨ bF = false) :
    scanLoop (l :: rest) j mol aF bF ctr = scanLoop rest (j + 1) mol false true ctr := by
  have hcond : (strContains (pyStrip l) "@<TRIPOS>MOLECULE" && bF) = false := by
    rcases hMb with h | h <;> simp [h]
  simp [scanLoop, hcond, hA, hB]

theorem scanLoop_skip : ∀ (ls rest : List String) (j : ℕ) (mol : MolObj) (ctr : ℕ),
    (∀ l ∈ ls, SkipWF l) →
    scanLoop (ls ++ rest) j mol false false ctr = scanLoop rest (j + ls.length) mol false false ctr
  | [], rest, j, mol, ctr, _ => by simp
  | l :: ls, rest, j, mol, ctr, h => by
    obtain ⟨hA, hB, -⟩ := h l (List.mem_cons_self l ls)
    have hidx : j + 1 + ls.length = j + (l :: ls).length := by
      rw [List.length_cons]
      omega
    rw [List.cons_append, ← hidx,
      ← scanLoop_skip ls rest (j + 1) mol ctr (fun l' hl' => h l' (List.mem_cons_of_mem _ hl'))]
    simp [scanLoop, hA, hB]

theorem scanLoop_atomshort : ∀ (ls rest : List String) (j : ℕ) (mol : MolObj) (ctr : ℕ),
    (∀ l ∈ ls, AtomShortWF l) →
    scanLoop (ls ++ rest) j mol true false ctr = scanLoop rest (j + ls.length) mol true false ctr
  | [], rest, j, mol, ctr, _ => by simp
  | l :: ls, rest, j, mol, ctr, h => by
    obtain ⟨hA, hB, hshort⟩ := h l (List.mem_cons_self l ls)
    have hidx : j + 1 + ls.length = j + (l :: ls).length := by
      rw [List.length_cons]
      omega
    rw [List.cons_append, ← hidx,
      ← scanLoop_atomshort ls rest (j + 1) mol ctr (fun l' hl' => h l' (List.mem_cons_of_mem _ hl'))]
    simp [scanLoop, hA, hB, atomStep_short mol ctr (pyStrip l) hshort]

theorem scanLoop_bondshort : ∀ (ls rest : List String) (j : ℕ) (mol : MolObj) (ctr : ℕ),
    (∀ l ∈ ls, ShortLineWF l) →
    scanLoop (ls ++ rest) j mol false true ctr = scanLoop rest (j + ls.length) mol false true ctr
  | [], rest, j, mol, ctr, _ => by simp
  | l :: ls, rest, j, mol, ctr, h => by
    obtain ⟨⟨hM, hA, hB, -⟩, hshort⟩ := h l (List.mem_cons_self l ls)
    have hidx : j + 1 + ls.length = j + (l :: ls).length := by
      rw [List.length_cons]
      omega
    rw [List.cons_append, ← hidx,
      ← scanLoop_bondshort ls rest (j + 1) mol ctr (fun l' hl' => h l' (List.mem_cons_of_mem _ hl'))]
    simp [scanLoop, hM, hA, hB, bondStep_short mol ctr (pyStrip l) hshort]

theorem scanLoop_atoms_batch : ∀ (als rest : List String) (j : ℕ) (mol : MolObj) (ctr : ℕ),
    (∀ l ∈ als, AtomLineWF l) → AtomsFresh mol.atoms ctr →
    ∃ mol' ctr', scanLoop (als ++ rest) j mol true false ctr =
        scanLoop rest (j + als.length) mol' true false ctr' ∧
      mol'.atoms.map atomKey = mol.atoms.map atomKey ++ als.map atomRecOf ∧
      mol'.bonds = mol.bonds ∧ mol'.name = mol.name ∧
      AtomsFresh mol'.atoms ctr' ∧ ctr ≤ ctr'
  | [], rest, j, mol, ctr, _, hf => ⟨mol, ctr, by simp, by simp, rfl, rfl, hf, le_refl ctr⟩
  | l :: ls, rest, j, mol, ctr, h, hf => by
    have hwf : AtomLineWF l := h l (List.mem_cons_self l ls)
    have hrest : ∀ l' ∈ ls, AtomLineWF l' := fun l' hl' => h l' (List.mem_cons_of_mem _ hl')
    obtain ⟨hM, hA, hB, -⟩ := hwf.1
    obtain ⟨mol1, ctr1, hstep, hkeys, hbonds, hname, hf1, hlt1⟩ := atomStep_wf mol ctr l hwf hf
    obtain ⟨mol', ctr', hscan, hkeys', hbonds', hname', hf', hle'⟩ :=
      scanLoop_atoms_batch ls rest (j + 1) mol1 ctr1 hrest hf1
    have hidx : j + 1 + ls.length = j + (l :: ls).length := by
      rw [List.length_cons]
      omega
    refine ⟨mol', ctr', ?_, ?_, ?_, ?_, hf', le_trans (le_of_lt hlt1) hle'⟩
    · rw [List.cons_append, ← hidx, ← hscan]
      simp [scanLoop, hA, hB, hstep]
    · rw [hkeys', hkeys]
      simp [List.append_assoc]
    · rw [hbonds', hbonds]
    · rw [hname', hname]

theorem scanLoop_bonds_batch : ∀ (bls rest : List String) (j : ℕ) (mol : MolObj) (ctr : ℕ),
    (∀ l ∈ bls, BondLineWF (mol.atoms.map atomKey) l) →
    ∃ mol' ctr', scanLoop (bls ++ rest) j mol false true ctr =
        scanLoop rest (j + bls.length) mol' false true ctr' ∧
      mol'.atoms = mol.atoms ∧ mol'.name = mol.name ∧
      mol'.bonds.map bondKey =
        mol.bonds.map bondKey ++ bls.map (bondRecOf (mol.atoms.map atomKey)) ∧
      ctr ≤ ctr'
  | [], rest, j, mol, ctr, _ => ⟨mol, ctr, by simp, rfl, rfl, by simp, le_refl ctr⟩
  | l :: ls, rest, j, mol, ctr, h => by
    have hwf : BondLineWF (mol.atoms.map atomKey) l := h l (List.mem_cons_self l ls)
    obtain ⟨hM, hA, hB, -⟩ := hwf.1
    obtain ⟨b, hstep, hbkey⟩ := bondStep_wf mol ctr l hwf
    have hrest : ∀ l' ∈ ls,
        BondLineWF (({ mol with bonds := mol.bonds ++ [b] } : MolObj).atoms.map atomKey) l' :=
      fun l' hl' => h l' (List.mem_cons_of_mem _ hl')
    obtain ⟨mol', ctr', hscan, hatoms', hname', hkeys', hle'⟩ :=
      scanLoop_bonds_batch ls rest (j + 1) { mol with bonds := mol.bonds ++ [b] } (ctr + 1) hrest
    have hidx : j + 1 + ls.length = j + (l :: ls).length := by
      rw [List.length_cons]
      omega
    refine ⟨mol', ctr', ?_, hatoms', hname', ?_, le_trans (Nat.le_succ ctr) hle'⟩
    · rw [List.cons_append, ← hidx, ← hscan]
      simp [scanLoop, hM, hA, hB, hstep]
    · rw [hkeys']
      simp [hbkey, List.append_assoc]

/-! ### The element pre-pass and colour seeding -/

theorem lmLoop_skip : ∀ (ls rest els : List String),
    (∀ l ∈ ls, strContains (pyStrip l) "@<TRIPOS>ATOM" = false ∧
      strContains (pyStrip l) "@<TRIPOS>BOND" = false) →
    lmLoop (ls ++ rest) false els = lmLoop rest false els
  | [], _, _, _ => rfl
  | l :: ls, rest, els, h => by
    obtain ⟨hA, hB⟩ := h l (List.mem_cons_self l ls)
    rw [List.cons_append,
      ← lmLoop_skip ls rest els (fun l' hl' => h l' (List.mem_cons_of_mem _ hl'))]
    simp [lmLoop, hA, hB]

theorem lmLoop_cons_atomMarker (l : String) (rest els : List String) (aF : Bool)
    (hA : strContains (pyStrip l) "@<TRIPOS>ATOM" = true) :
    lmLoop (l :: rest) aF els = lmLoop rest true els := by
  simp [lmLoop, hA]

theorem lmLoop_cons_bondMarker (l : String) (rest els : List String) (aF : Bool)
    (hB : strContains (pyStrip l) "@<TRIPOS>BOND" = true)
    (hA : strContains (pyStrip l) "@<TRIPOS>ATOM" = false) :
    lmLoop (l :: rest) aF els = .ok els := by
  simp [lmLoop, hA, hB]

theorem lmLoop_atoms_ok : ∀ (als rest els : List String),
    (∀ l ∈ als, strContains (pyStrip l) "@<TRIPOS>ATOM" = false ∧
      strContains (pyStrip l) "@<TRIPOS>BOND" = false ∧ 2 ≤ (pySplit (pyStrip l)).length) →
    ∃ els', lmLoop (als ++ rest) true els = lmLoop rest true els'
  | [], rest, els, _ => ⟨els, rfl⟩
  | l :: ls, rest, els, h => by
    obtain ⟨hA, hB, hlen⟩ := h l (List.mem_cons_self l ls)
    have hrest := fun l' hl' => h l' (List.mem_cons_of_mem _ hl')
    obtain ⟨t, ht⟩ : ∃ t, (pySplit (pyStrip l))[1]? = some t := by
      cases hsp : pySplit (pyStrip l) with
      | nil => rw [hsp] at hlen; simp at hlen
      | cons a as =>
        cases as with
        | nil => rw [hsp] at hlen; simp at hlen
        | cons b bs => exact ⟨b, by simp⟩
    by_cases hcond : 5 ≤ (pySplit (pyStrip l)).length ∧ parse_element_string t ∉ els
    · obtain ⟨els', hres⟩ := lmLoop_atoms_ok ls rest (els ++ [parse_element_string t]) hrest
      exact ⟨els', by rw [List.cons_append, ← hres]; simp [lmLoop, hA, hB, ht, hcond]⟩
    · obtain ⟨els', hres⟩ := lmLoop_atoms_ok ls rest els hrest
      exact ⟨els', by rw [List.cons_append, ← hres]; simp [lmLoop, hA, hB, ht, hcond]⟩

theorem lmLoop_cons_skip (l : String) (rest els : List String)
    (hA : strContains (pyStrip l) "@<TRIPOS>ATOM" = false)
    (hB : strContains (pyStrip l) "@<TRIPOS>BOND" = false) :
    lmLoop (l :: rest) false els = lmLoop rest false els := by
  simp [lmLoop, hA, hB]

theorem lm_sections_ok (pre names atomLines : List String) (ml al bl : String)
    (rest : List String)
    (hpre : ∀ l ∈ pre, SkipWF l) (hnames : ∀ l ∈ names, SkipWF l)
    (hmlA : strContains (pyStrip ml) "@<TRIPOS>ATOM" = false)
    (hmlB : strContains (pyStrip ml) "@<TRIPOS>BOND" = false)
    (halA : strContains (pyStrip al) "@<TRIPOS>ATOM" = true)
    (hblB : strContains (pyStrip bl) "@<TRIPOS>BOND" = true)
    (hblA : strContains (pyStrip bl) "@<TRIPOS>ATOM" = false)
    (hatoms : ∀ l ∈ atomLines, AtomLineWF l) :
    ∃ els, list_materials_in_molecule
      (pre ++ [ml] ++ names ++ [al] ++ atomLines ++ bl :: rest) = .ok els := by
  have h1 : ∀ l ∈ pre, strContains (pyStrip l) "@<TRIPOS>ATOM" = false ∧
      strContains (pyStrip l) "@<TRIPOS>BOND" = false :=
    fun l hl => ⟨(hpre l hl).1, (hpre l hl).2.1⟩
  have h2 : ∀ l ∈ names, strContains (pyStrip l) "@<TRIPOS>ATOM" = false ∧
      strContains (pyStrip l) "@<TRIPOS>BOND" = false :=
    fun l hl => ⟨(hnames l hl).1, (hnames l hl).2.1⟩
  have h3 : ∀ l ∈ atomLines, strContains (pyStrip l) "@<TRIPOS>ATOM" = false ∧
      strContains (pyStrip l) "@<TRIPOS>BOND" = false ∧ 2 ≤ (pySplit (pyStrip l)).length :=
    fun l hl => ⟨(hatoms l hl).1.2.1, (hatoms l hl).1.2.2.1,
      le_trans (by norm_num) (hatoms l hl).2.1⟩
  obtain ⟨els', hels⟩ := lmLoop_atoms_ok atomLines (bl :: rest) [] h3
  refine ⟨els', ?_⟩
  unfold list_materials_in_molecule
  rw [show pre ++ [ml] ++ names ++ [al] ++ atomLines ++ bl :: rest =
      pre ++ ([ml] ++ (names ++ ([al] ++ (atomLines ++ bl :: rest)))) by simp,
    lmLoop_skip pre _ [] h1, List.singleton_append,
    lmLoop_cons_skip ml _ [] hmlA hmlB,
    lmLoop_skip names _ [] h2, List.singleton_append,
    lmLoop_cons_atomMarker al _ [] false halA, hels]
  exact lmLoop_cons_bondMarker bl rest els' true hblB hblA

/-- Projections preserved by the inner import loop. -/
theorem importEntry_foldl_projections :
    ∀ (entries : List ElementMaterial) (allowed : List String) (acc : MolObj),
    (entries.foldl (importEntry allowed) acc).atoms = acc.atoms ∧
    (entries.foldl (importEntry allowed) acc).bonds = acc.bonds ∧
    (entries.foldl (importEntry allowed) acc).name = acc.name
  | [], _, _ => ⟨rfl, rfl, rfl⟩
  | e :: es, allowed, acc => by
    have hone : (importEntry allowed acc e).atoms = acc.atoms ∧
        (importEntry allowed acc e).bonds = acc.bonds ∧
        (importEntry allowed acc e).name = acc.name := by
      unfold importEntry
      split_ifs <;> exact ⟨rfl, rfl, rfl⟩
    obtain ⟨g1, g2, g3⟩ := importEntry_foldl_projections es allowed (importEntry allowed acc e)
    exact ⟨g1.trans hone.1, g2.trans hone.2.1, g3.trans hone.2.2⟩

/-- Projections preserved by the outer import loop. -/
theorem importFromMol_foldl_projections :
    ∀ (ms : List MolObj) (allowed : List String) (acc : MolObj),
    (ms.foldl (importFromMol allowed) acc).atoms = acc.atoms ∧
    (ms.foldl (importFromMol allowed) acc).bonds = acc.bonds ∧
    (ms.foldl (importFromMol allowed) acc).name = acc.name
  | [], _, _ => ⟨rfl, rfl, rfl⟩
  | m :: ms, allowed, acc => by
    have hone := importEntry_foldl_projections
      (m.element_materials.filter (fun x => x.material.hasBSDF)) allowed acc
    obtain ⟨g1, g2, g3⟩ := importFromMol_foldl_projections ms allowed (importFromMol allowed acc m)
    exact ⟨g1.trans hone.1, g2.trans hone.2.1, g3.trans hone.2.2⟩

theorem import_materials_ok (scene : List MolObj) (mol : MolObj) (els : List String)
    (hem : mol.element_materials = []) :
    ∃ mol', import_materials scene mol els = .ok mol' ∧
      mol'.atoms = mol.atoms ∧ mol'.bonds = mol.bonds ∧ mol'.name = mol.name := by
  simp only [import_materials]
  rw [if_neg (by simp [hem])]
  exact ⟨_, rfl, importFromMol_foldl_projections _ els mol⟩

theorem seedMolecule_ok (lines_from : List String) (sc : Bool) (scene : List MolObj)
    (empty : MolObj) (hem : empty.element_materials = [])
    (hlm : sc = true → ∃ els, list_materials_in_molecule lines_from = .ok els) :
    ∃ mol0, seedMolecule lines_from sc scene empty = .ok mol0 ∧
      mol0.atoms = empty.atoms ∧ mol0.bonds = empty.bonds ∧ mol0.name = empty.name := by
  cases sc with
  | false => exact ⟨empty, rfl, rfl, rfl, rfl⟩
  | true =>
    obtain ⟨els, hels⟩ := hlm rfl
    obtain ⟨mol0, him, h1, h2, h3⟩ := import_materials_ok scene empty els hem
    exact ⟨mol0, by simp [seedMolecule, hels, him], h1, h2, h3⟩

/-! ### One full pass over a molecule's sections -/

theorem scanLoop_cons_degenerate (l : String) (rest : List String) (j : ℕ) (mol : MolObj)
    (ctr : ℕ) (hl : DegenerateBondLine (mol.atoms.map atomKey) l) :
    scanLoop (l :: rest) j mol false true ctr = ⟨mol, ctr, .degenerate⟩ := by
  obtain ⟨hM, hA, hB, -⟩ := hl.1
  simp [scanLoop, hM, hA, hB, bondStep_degenerate mol ctr l hl]

theorem scanLoop_cons_unresolved (l : String) (rest : List String) (j : ℕ) (mol : MolObj)
    (ctr : ℕ) (hl : UnresolvedBondLine (mol.atoms.map atomKey) l) :
    scanLoop (l :: rest) j mol false true ctr = ⟨mol, ctr, .err .attributeError⟩ := by
  obtain ⟨hM, hA, hB, -⟩ := hl.1
  simp [scanLoop, hM, hA, hB, bondStep_unresolved mol ctr l hl]

theorem scanLoop_sections (pre names atomLines : List String) (ml al bl : String)
    (rest : List String) (mol0 : MolObj) (ctr : ℕ)
    (hatoms0 : mol0.atoms = []) (hbonds0 : mol0.bonds = [])
    (hpre : ∀ l ∈ pre, SkipWF l) (hnames : ∀ l ∈ names, SkipWF l)
    (hmlA : strContains (pyStrip ml) "@<TRIPOS>ATOM" = false)
    (hmlB : strContains (pyStrip ml) "@<TRIPOS>BOND" = false)
    (halA : strContains (pyStrip al) "@<TRIPOS>ATOM" = true)
    (hblB : strContains (pyStrip bl) "@<TRIPOS>BOND" = true)
    (hblA : strContains (pyStrip bl) "@<TRIPOS>ATOM" = false)
    (hatoms : ∀ l ∈ atomLines, AtomLineWF l) :
    ∃ mol1 ctr1,
      scanLoop (pre ++ [ml] ++ names ++ [al] ++ atomLines ++ bl :: rest) 0 mol0 false false ctr =
        scanLoop rest (pre.length + names.length + atomLines.length + 3) mol1 false true ctr1 ∧
      mol1.atoms.map atomKey = atomLines.map atomRecOf ∧ mol1.bonds = [] ∧
      mol1.name = mol0.name ∧ AtomsFresh mol1.atoms ctr1 ∧ ctr ≤ ctr1 := by
  have hf0 : AtomsFresh mol0.atoms ctr := by
    rw [hatoms0]
    exact fun a ha => absurd ha (List.not_mem_nil a)
  obtain ⟨mol1, ctr1, hbatch, hkeys, hbonds, hname, hf1, hle1⟩ :=
    scanLoop_atoms_batch atomLines (bl :: rest)
      (pre.length + 1 + names.length + 1) mol0 ctr hatoms hf0
  refine ⟨mol1, ctr1, ?_, ?_, ?_, hname, hf1, hle1⟩
  · rw [show pre ++ [ml] ++ names ++ [al] ++ atomLines ++ bl :: rest =
        pre ++ ([ml] ++ (names ++ ([al] ++ (atomLines ++ bl :: rest)))) by simp,
      scanLoop_skip pre _ 0 mol0 ctr hpre, List.singleton_append]
    have hskipml : scanLoop (ml :: (names ++ ([al] ++ (atomLines ++ bl :: rest))))
        (0 + pre.length) mol0 false false ctr =
        scanLoop (names ++ ([al] ++ (atomLines ++ bl :: rest)))
          (0 + pre.length + 1) mol0 false false ctr := by
      simp [scanLoop, hmlA, hmlB]
    rw [hskipml, scanLoop_skip names _ _ mol0 ctr hnames, List.singleton_append,
      scanLoop_cons_atomMarker al _ _ mol0 false false ctr halA (Or.inr rfl)]
    have hidx : 0 + pre.length + 1 + names.length + 1 = pre.length + 1 + names.length + 1 := by
      omega
    rw [hidx, hbatch,
      scanLoop_cons_bondMarker bl rest _ mol1 true false ctr1 hblB hblA (Or.inr rfl)]
    have hidx2 : pre.length + 1 + names.length + 1 + atomLines.length + 1 =
        pre.length + names.length + atomLines.length + 3 := by omega
    rw [hidx2]
  · rw [hkeys, hatoms0]
    simp
  · rw [hbonds, hbonds0]

theorem scanLoop_block_std (pre names atomLines bondLines post tail : List String)
    (ml al bl : String) (mol0 : MolObj) (ctr : ℕ)
    (hatoms0 : mol0.atoms = []) (hbonds0 : mol0.bonds = [])
    (hpre : ∀ l ∈ pre, SkipWF l) (hnames : ∀ l ∈ names, SkipWF l)
    (hmlA : strContains (pyStrip ml) "@<TRIPOS>ATOM" = false)
    (hmlB : strContains (pyStrip ml) "@<TRIPOS>BOND" = false)
    (halA : strContains (pyStrip al) "@<TRIPOS>ATOM" = true)
    (hblB : strContains (pyStrip bl) "@<TRIPOS>BOND" = true)
    (hblA : strContains (pyStrip bl) "@<TRIPOS>ATOM" = false)
    (hatoms : ∀ l ∈ atomLines, AtomLineWF l)
    (hbonds : ∀ l ∈ bondLines, BondLineWF (atomLines.map atomRecOf) l)
    (hpost : ∀ l ∈ post, ShortLineWF l) :
    ∃ mol' ctr',
      scanLoop (pre ++ [ml] ++ names ++ [al] ++ atomLines ++ bl ::
          (bondLines ++ post ++ tail)) 0 mol0 false false ctr =
        scanLoop tail (pre.length + names.length + atomLines.length +
          bondLines.length + post.length + 3) mol' false true ctr' ∧
      mol'.atoms.map atomKey = atomLines.map atomRecOf ∧
      mol'.bonds.map bondKey = bondLines.map (bondRecOf (atomLines.map atomRecOf)) ∧
      mol'.name = mol0.name ∧ ctr ≤ ctr' := by
  obtain ⟨mol1, ctr1, hsec, hak1, hbk1, hnm1, hf1, hle1⟩ :=
    scanLoop_sections pre names atomLines ml al bl (bondLines ++ post ++ tail) mol0 ctr
      hatoms0 hbonds0 hpre hnames hmlA hmlB halA hblB hblA hatoms
  have hbonds1 : ∀ l ∈ bondLines, BondLineWF (mol1.atoms.map atomKey) l := by
    rw [hak1]
    exact hbonds
  obtain ⟨mol', ctr', hbatch, hak', hnm', hbk', hle'⟩ :=
    scanLoop_bonds_batch bondLines (post ++ tail)
      (pre.length + names.length + atomLines.length + 3) mol1 ctr1 hbonds1
  refine ⟨mol', ctr', ?_, ?_, ?_, hnm'.trans hnm1, le_trans hle1 hle'⟩
  · rw [hsec, show bondLines ++ post ++ tail = bondLines ++ (post ++ tail) by simp,
      hbatch, scanLoop_bondshort post tail _ mol' ctr' hpost]
    congr 1
    omega
  · rw [hak', hak1]
  · rw [hbk', hbk1, hak1]
    simp

/-! ### Per-molecule iterations of `execute` -/

theorem execLoop_iter_eof (lines : List String) (sc : Bool) (name : String) (n sl : ℕ)
    (scene : List MolObj) (ctr : ℕ)
    (pre names atomLines bondLines post : List String) (ml al bl : String)
    (hdrop : lines.drop sl =
      pre ++ [ml] ++ names ++ [al] ++ atomLines ++ bl :: (bondLines ++ post ++ []))
    (hpre : ∀ l ∈ pre, SkipWF l) (hnames : ∀ l ∈ names, SkipWF l)
    (hmlA : strContains (pyStrip ml) "@<TRIPOS>ATOM" = false)
    (hmlB : strContains (pyStrip ml) "@<TRIPOS>BOND" = false)
    (halA : strContains (pyStrip al) "@<TRIPOS>ATOM" = true)
    (hblB : strContains (pyStrip bl) "@<TRIPOS>BOND" = true)
    (hblA : strContains (pyStrip bl) "@<TRIPOS>ATOM" = false)
    (hatoms : ∀ l ∈ atomLines, AtomLineWF l)
    (hbonds : ∀ l ∈ bondLines, BondLineWF (atomLines.map atomRecOf) l)
    (hpost : ∀ l ∈ post, ShortLineWF l) :
    ∃ mol' ctr', execLoop lines sc name (n + 1) sl scene ctr =
        execLoop lines sc name n sl (scene ++ [mol']) ctr' ∧
      mol'.atoms.map atomKey = atomLines.map atomRecOf ∧
      mol'.bonds.map bondKey = bondLines.map (bondRecOf (atomLines.map atomRecOf)) ∧
      mol'.name = (mkEmpty name 0).name := by
  obtain ⟨mol0, hseed, ha0, hb0, hn0⟩ :=
    seedMolecule_ok (lines.drop sl) sc scene (mkEmpty name ctr) rfl
      (fun _ => by
        rw [hdrop]
        exact lm_sections_ok pre names atomLines ml al bl _
          hpre hnames hmlA hmlB halA hblB hblA hatoms)
  obtain ⟨mol', ctr', hscan, hak, hbk, hnm, hle⟩ :=
    scanLoop_block_std pre names atomLines bondLines post [] ml al bl mol0 (ctr + 1)
      (ha0.trans rfl) (hb0.trans rfl) hpre hnames hmlA hmlB halA hblB hblA hatoms hbonds hpost
  refine ⟨mol', ctr', ?_, hak, hbk, by rw [hnm, hn0]; rfl⟩
  simp only [execLoop]
  rw [hseed, hdrop]
  dsimp only
  rw [hscan, scanLoop_nil]

theorem execLoop_iter_brk (lines : List String) (sc : Bool) (name : String) (n sl : ℕ)
    (scene : List MolObj) (ctr : ℕ)
    (pre names atomLines bondLines post tail2 : List String) (ml al bl ml2 : String)
    (hdrop : lines.drop sl =
      pre ++ [ml] ++ names ++ [al] ++ atomLines ++ bl :: (bondLines ++ post ++ ml2 :: tail2))
    (hpre : ∀ l ∈ pre, SkipWF l) (hnames : ∀ l ∈ names, SkipWF l)
    (hmlA : strContains (pyStrip ml) "@<TRIPOS>ATOM" = false)
    (hmlB : strContains (pyStrip ml) "@<TRIPOS>BOND" = false)
    (halA : strContains (pyStrip al) "@<TRIPOS>ATOM" = true)
    (hblB : strContains (pyStrip bl) "@<TRIPOS>BOND" = true)
    (hblA : strContains (pyStrip bl) "@<TRIPOS>ATOM" = false)
    (hml2 : strContains (pyStrip ml2) "@<TRIPOS>MOLECULE" = true)
    (hatoms : ∀ l ∈ atomLines, AtomLineWF l)
    (hbonds : ∀ l ∈ bondLines, BondLineWF (atomLines.map atomRecOf) l)
    (hpost : ∀ l ∈ post, ShortLineWF l) :
    ∃ mol' ctr', execLoop lines sc name (n + 1) sl scene ctr =
        execLoop lines sc name n
          (sl + (pre.length + names.length + atomLines.length +
            bondLines.length + post.length + 3))
          (scene ++ [mol']) ctr' ∧
      mol'.atoms.map atomKey = atomLines.map atomRecOf ∧
      mol'.bonds.map bondKey = bondLines.map (bondRecOf (atomLines.map atomRecOf)) ∧
      mol'.name = (mkEmpty name 0).name := by
  obtain ⟨mol0, hseed, ha0, hb0, hn0⟩ :=
    seedMolecule_ok (lines.drop sl) sc scene (mkEmpty name ctr) rfl
      (fun _ => by
        rw [hdrop]
        exact lm_sections_ok pre names atomLines ml al bl _
          hpre hnames hmlA hmlB halA hblB hblA hatoms)
  obtain ⟨mol', ctr', hscan, hak, hbk, hnm, hle⟩ :=
    scanLoop_block_std pre names atomLines bondLines post (ml2 :: tail2) ml al bl mol0 (ctr + 1)
      (ha0.trans rfl) (hb0.trans rfl) hpre hnames hmlA hmlB halA hblB hblA hatoms hbonds hpost
  refine ⟨mol', ctr', ?_, hak, hbk, by rw [hnm, hn0]; rfl⟩
  simp only [execLoop]
  rw [hseed, hdrop]
  dsimp only
  rw [hscan, scanLoop_cons_break ml2 tail2 _ mol' false ctr' hml2]

theorem execLoop_iter_unresolved (lines : List String) (sc : Bool) (name : String)
    (n sl : ℕ) (scene : List MolObj) (ctr : ℕ)
    (pre names atomLines goodBonds after : List String) (ml al bl bad : String)
    (hdrop : lines.drop sl =
      pre ++ [ml] ++ names ++ [al] ++ atomLines ++ bl :: (goodBonds ++ bad :: after))
    (hpre : ∀ l ∈ pre, SkipWF l) (hnames : ∀ l ∈ names, SkipWF l)
    (hmlA : strContains (pyStrip ml) "@<TRIPOS>ATOM" = false)
    (hmlB : strContains (pyStrip ml) "@<TRIPOS>BOND" = false)
    (halA : strContains (pyStrip al) "@<TRIPOS>ATOM" = true)
    (hblB : strContains (pyStrip bl) "@<TRIPOS>BOND" = true)
    (hblA : strContains (pyStrip bl) "@<TRIPOS>ATOM" = false)
    (hatoms : ∀ l ∈ atomLines, AtomLineWF l)
    (hbonds : ∀ l ∈ goodBonds, BondLineWF (atomLines.map atomRecOf) l)
    (hbad : UnresolvedBondLine (atomLines.map atomRecOf) bad) :
    ∃ molF, execLoop lines sc name (n + 1) sl scene ctr =
        ⟨scene ++ [molF], .raised .attributeError⟩ ∧
      molF.atoms.map atomKey = atomLines.map atomRecOf ∧
      molF.bonds.map bondKey = goodBonds.map (bondRecOf (atomLines.map atomRecOf)) := by
  obtain ⟨mol0, hseed, ha0, hb0, hn0⟩ :=
    seedMolecule_ok (lines.drop sl) sc scene (mkEmpty name ctr) rfl
      (fun _ => by
        rw [hdrop]
        exact lm_sections_ok pre names atomLines ml al bl _
          hpre hnames hmlA hmlB halA hblB hblA hatoms)
  obtain ⟨mol1, ctr1, hsec, hak1, hbk1, hnm1, hf1, hle1⟩ :=
    scanLoop_sections pre names atomLines ml al bl (goodBonds ++ bad :: after) mol0 (ctr + 1)
      (ha0.trans rfl) (hb0.trans rfl) hpre hnames hmlA hmlB halA hblB hblA hatoms
  have hbonds1 : ∀ l ∈ goodBonds, BondLineWF (mol1.atoms.map atomKey) l := by
    rw [hak1]
    exact hbonds
  obtain ⟨mol', ctr', hbatch, hak', hnm', hbk', hle'⟩ :=
    scanLoop_bonds_batch goodBonds (bad :: after)
      (pre.length + names.length + atomLines.length + 3) mol1 ctr1 hbonds1
  have hbad' : UnresolvedBondLine (mol'.atoms.map atomKey) bad := by
    rw [hak', hak1]
    exact hbad
  refine ⟨mol', ?_, by rw [hak', hak1], ?_⟩
  · simp only [execLoop]
    rw [hseed, hdrop]
    dsimp only
    rw [hsec, show goodBonds ++ bad :: after = goodBonds ++ (bad :: after) by simp,
      hbatch, scanLoop_cons_unresolved bad after _ mol' ctr' hbad']
  · rw [hbk', hbk1, hak1]
    simp

theorem execLoop_iter_degenerate (lines : List String) (sc : Bool) (name : String)
    (n sl : ℕ) (scene : List MolObj) (ctr : ℕ)
    (pre names atomLines goodBonds after : List String) (ml al bl bad : String)
    (hdrop : lines.drop sl =
      pre ++ [ml] ++ names ++ [al] ++ atomLines ++ bl :: (goodBonds ++ bad :: after))
    (hpre : ∀ l ∈ pre, SkipWF l) (hnames : ∀ l ∈ names, SkipWF l)
    (hmlA : strContains (pyStrip ml) "@<TRIPOS>ATOM" = false)
    (hmlB : strContains (pyStrip ml) "@<TRIPOS>BOND" = false)
    (halA : strContains (pyStrip al) "@<TRIPOS>ATOM" = true)
    (hblB : strContains (pyStrip bl) "@<TRIPOS>BOND" = true)
    (hblA : strContains (pyStrip bl) "@<TRIPOS>ATOM" = false)
    (hatoms : ∀ l ∈ atomLines, AtomLineWF l)
    (hbonds : ∀ l ∈ goodBonds, BondLineWF (atomLines.map atomRecOf) l)
    (hbad : DegenerateBondLine (atomLines.map atomRecOf) bad) :
    execLoop lines sc name (n + 1) sl scene ctr =
      ⟨scene, .finished .corruptedCoordinates⟩ := by
  obtain ⟨mol0, hseed, ha0, hb0, hn0⟩ :=
    seedMolecule_ok (lines.drop sl) sc scene (mkEmpty name ctr) rfl
      (fun _ => by
        rw [hdrop]
        exact lm_sections_ok pre names atomLines ml al bl _
          hpre hnames hmlA hmlB halA hblB hblA hatoms)
  obtain ⟨mol1, ctr1, hsec, hak1, hbk1, hnm1, hf1, hle1⟩ :=
    scanLoop_sections pre names atomLines ml al bl (goodBonds ++ bad :: after) mol0 (ctr + 1)
      (ha0.trans rfl) (hb0.trans rfl) hpre hnames hmlA hmlB halA hblB hblA hatoms
  have hbonds1 : ∀ l ∈ goodBonds, BondLineWF (mol1.atoms.map atomKey) l := by
    rw [hak1]
    exact hbonds
  obtain ⟨mol', ctr', hbatch, hak', hnm', hbk', hle'⟩ :=
    scanLoop_bonds_batch goodBonds (bad :: after)
      (pre.length + names.length + atomLines.length + 3) mol1 ctr1 hbonds1
  have hbad' : DegenerateBondLine (mol'.atoms.map atomKey) bad := by
    rw [hak', hak1]
    exact hbad
  simp only [execLoop]
  rw [hseed, hdrop]
  dsimp only
  rw [hsec, show goodBonds ++ bad :: after = goodBonds ++ (bad :: after) by simp,
    hbatch, scanLoop_cons_degenerate bad after _ mol' ctr' hbad']

/-! ### Whole-import runs on structured files -/

theorem execLoop_zero (lines : List String) (sc : Bool) (name : String) (sl : ℕ)
    (scene : List MolObj) (ctr : ℕ) :
    execLoop lines sc name 0 sl scene ctr = ⟨scene, .finished .moleculeCreated⟩ := rfl

theorem countP_marker_zero (ls : List String)
    (h : ∀ l ∈ ls, strContains l "@<TRIPOS>MOLECULE" = false) :
    ls.countP (fun l => strContains l "@<TRIPOS>MOLECULE") = 0 :=
  List.countP_eq_zero.mpr (fun a ha => by simp [h a ha])

theorem execute_single_molecule (sc : Bool) (name : String) (scene0 : List MolObj) (ctr0 : ℕ)
    (pre names atomLines bondLines post : List String) (ml al bl : String)
    (hml : MolMarkerLine ml) (hal : AtomMarkerLine al) (hbl : BondMarkerLine bl)
    (hpre : ∀ l ∈ pre, SkipWF l) (hnames : ∀ l ∈ names, SkipWF l)
    (hatoms : ∀ l ∈ atomLines, AtomLineWF l)
    (hbonds : ∀ l ∈ bondLines, BondLineWF (atomLines.map atomRecOf) l)
    (hpost : ∀ l ∈ post, ShortLineWF l) :
    ∃ m, execute (pre ++ [ml] ++ names ++ [al] ++ atomLines ++ bl ::
        (bondLines ++ post ++ [])) sc name scene0 ctr0 =
        ⟨scene0 ++ [m], .finished .moleculeCreated⟩ ∧
      m.atoms.map atomKey = atomLines.map atomRecOf ∧
      m.bonds.map bondKey = bondLines.map (bondRecOf (atomLines.map atomRecOf)) ∧
      m.name = (mkEmpty name 0).name := by
  obtain ⟨hmlM, hmlMr, hmlA, hmlB⟩ := hml
  obtain ⟨halA, halM, halMr⟩ := hal
  obtain ⟨hblB, hblA, hblM, hblMr⟩ := hbl
  have hcount : (pre ++ [ml] ++ names ++ [al] ++ atomLines ++ bl ::
      (bondLines ++ post ++ [])).countP
        (fun l => strContains l "@<TRIPOS>MOLECULE") = 1 := by
    simp only [List.countP_append, List.countP_cons,
      countP_marker_zero pre (fun l hl => (hpre l hl).2.2),
      countP_marker_zero names (fun l hl => (hnames l hl).2.2),
      countP_marker_zero atomLines (fun l hl => (hatoms l hl).1.2.2.2),
      countP_marker_zero bondLines (fun l hl => (hbonds l hl).1.2.2.2),
      countP_marker_zero post (fun l hl => (hpost l hl).1.2.2.2)]
    simp [hmlMr, halMr, hblMr, List.countP_nil]
  obtain ⟨m, ctr', hiter, hak, hbk, hnm⟩ :=
    execLoop_iter_eof (pre ++ [ml] ++ names ++ [al] ++ atomLines ++ bl ::
        (bondLines ++ post ++ [])) sc name 0 0 scene0 ctr0
      pre names atomLines bondLines post ml al bl (by rw [List.drop_zero])
      hpre hnames hmlA hmlB halA hblB hblA hatoms hbonds hpost
  refine ⟨m, ?_, hak, hbk, hnm⟩
  simp only [execute]
  rw [hcount, if_neg (by omega : ¬(1 = 0))]
  have hiter' : execLoop (pre ++ [ml] ++ names ++ [al] ++ atomLines ++ bl ::
      (bondLines ++ post ++ [])) sc name 1 0 scene0 ctr0 =
    execLoop (pre ++ [ml] ++ names ++ [al] ++ atomLines ++ bl ::
      (bondLines ++ post ++ [])) sc name 0 0 (scene0 ++ [m]) ctr' := hiter
  rw [hiter', execLoop_zero]

theorem execute_first_degenerate (sc : Bool) (name : String) (scene0 : List MolObj) (ctr0 : ℕ)
    (pre names atomLines goodBonds after : List String) (ml al bl bad : String)
    (hml : MolMarkerLine ml) (hal : AtomMarkerLine al) (hbl : BondMarkerLine bl)
    (hpre : ∀ l ∈ pre, SkipWF l) (hnames : ∀ l ∈ names, SkipWF l)
    (hatoms : ∀ l ∈ atomLines, AtomLineWF l)
    (hbonds : ∀ l ∈ goodBonds, BondLineWF (atomLines.map atomRecOf) l)
    (hbad : DegenerateBondLine (atomLines.map atomRecOf) bad) :
    execute (pre ++ [ml] ++ names ++ [al] ++ atomLines ++ bl :: (goodBonds ++ bad :: after))
        sc name scene0 ctr0 = ⟨scene0, .finished .corruptedCoordinates⟩ := by
  obtain ⟨hmlM, hmlMr, hmlA, hmlB⟩ := hml
  obtain ⟨halA, halM, halMr⟩ := hal
  obtain ⟨hblB, hblA, hblM, hblMr⟩ := hbl
  have hcount : (pre ++ [ml] ++ names ++ [al] ++ atomLines ++ bl ::
      (goodBonds ++ bad :: after)).countP
        (fun l => strContains l "@<TRIPOS>MOLECULE") =
      after.countP (fun l => strContains l "@<TRIPOS>MOLECULE") + 1 := by
    simp only [List.countP_append, List.countP_cons,
      countP_marker_zero pre (fun l hl => (hpre l hl).2.2),
      countP_marker_zero names (fun l hl => (hnames l hl).2.2),
      countP_marker_zero atomLines (fun l hl => (hatoms l hl).1.2.2.2),
      countP_marker_zero goodBonds (fun l hl => (hbonds l hl).1.2.2.2)]
    simp [hmlMr, halMr, hblMr, hbad.1.2.2.2]
    omega
  simp only [execute]
  rw [hcount, if_neg (by omega : ¬(after.countP
    (fun l => strContains l "@<TRIPOS>MOLECULE") + 1 = 0))]
  exact execLoop_iter_degenerate _ sc name _ 0 scene0 ctr0
    pre names atomLines goodBonds after ml al bl bad (by rw [List.drop_zero])
    hpre hnames hmlA hmlB halA hblB hblA hatoms hbonds hbad

theorem execute_unresolved (sc : Bool) (name : String) (scene0 : List MolObj) (ctr0 : ℕ)
    (pre names atomLines goodBonds after : List String) (ml al bl bad : String)
    (hml : MolMarkerLine ml) (hal : AtomMarkerLine al) (hbl : BondMarkerLine bl)
    (hpre : ∀ l ∈ pre, SkipWF l) (hnames : ∀ l ∈ names, SkipWF l)
    (hatoms : ∀ l ∈ atomLines, AtomLineWF l)
    (hbonds : ∀ l ∈ goodBonds, BondLineWF (atomLines.map atomRecOf) l)
    (hbad : UnresolvedBondLine (atomLines.map atomRecOf) bad) :
    ∃ molF, execute (pre ++ [ml] ++ names ++ [al] ++ atomLines ++ bl ::
        (goodBonds ++ bad :: after)) sc name scene0 ctr0 =
        ⟨scene0 ++ [molF], .raised .attributeError⟩ ∧
      molF.atoms.map atomKey = atomLines.map atomRecOf ∧
      molF.bonds.map bondKey = goodBonds.map (bondRecOf (atomLines.map atomRecOf)) := by
  obtain ⟨hmlM, hmlMr, hmlA, hmlB⟩ := hml
  obtain ⟨halA, halM, halMr⟩ := hal
  obtain ⟨hblB, hblA, hblM, hblMr⟩ := hbl
  have hcount : (pre ++ [ml] ++ names ++ [al] ++ atomLines ++ bl ::
      (goodBonds ++ bad :: after)).countP
        (fun l => strContains l "@<TRIPOS>MOLECULE") =
      after.countP (fun l => strContains l "@<TRIPOS>MOLECULE") + 1 := by
    simp only [List.countP_append, List.countP_cons,
      countP_marker_zero pre (fun l hl => (hpre l hl).2.2),
      countP_marker_zero names (fun l hl => (hnames l hl).2.2),
      countP_marker_zero atomLines (fun l hl => (hatoms l hl).1.2.2.2),
      countP_marker_zero goodBonds (fun l hl => (hbonds l hl).1.2.2.2)]
    simp [hmlMr, halMr, hblMr, hbad.1.2.2.2]
    omega
  obtain ⟨molF, hiter, hak, hbk⟩ :=
    execLoop_iter_unresolved (pre ++ [ml] ++ names ++ [al] ++ atomLines ++ bl ::
        (goodBonds ++ bad :: after)) sc name
      (after.countP (fun l => strContains l "@<TRIPOS>MOLECULE")) 0 scene0 ctr0
      pre names atomLines goodBonds after ml al bl bad (by rw [List.drop_zero])
      hpre hnames hmlA hmlB halA hblB hblA hatoms hbonds hbad
  refine ⟨molF, ?_, hak, hbk⟩
  simp only [execute]
  rw [hcount, if_neg (by omega : ¬(after.countP
    (fun l => strContains l "@<TRIPOS>MOLECULE") + 1 = 0))]
  exact hiter

/-! ### Characterisation of the material import -/

theorem foldl_importFromMol_eq : ∀ (ms : List MolObj) (allowed : List String) (acc : MolObj),
    ms.foldl (importFromMol allowed) acc =
      (ms.flatMap (fun m => m.element_materials.filter
        (fun x => x.material.hasBSDF))).foldl (importEntry allowed) acc
  | [], _, _ => rfl
  | m :: ms, allowed, acc => by
    rw [List.flatMap_cons, List.foldl_append]
    exact foldl_importFromMol_eq ms allowed _

theorem importEntry_foldl_em : ∀ (entries : List ElementMaterial) (allowed : List String)
    (acc : MolObj),
    (entries.foldl (importEntry allowed) acc).element_materials =
      firstWins entries allowed acc.element_materials
  | [], _, _ => rfl
  | e :: es, allowed, acc => by
    unfold firstWins
    by_cases hc : e.element ∈ allowed ∧
        e.element ∉ acc.element_materials.map (fun x => x.element)
    · rw [if_pos hc]
      have hone : (importEntry allowed acc e).element_materials =
          acc.element_materials ++ [e] := by
        unfold importEntry
        rw [if_pos hc, molviz_add_element_material_not_mem _ _ hc.2]
      rw [List.foldl_cons, importEntry_foldl_em es allowed _, hone]
    · rw [if_neg hc, List.foldl_cons]
      have hone : importEntry allowed acc e = acc := by
        unfold importEntry
        rw [if_neg hc]
      rw [hone, importEntry_foldl_em es allowed acc]

theorem firstWins_mono : ∀ (entries : List ElementMaterial) (allowed : List String)
    (acc : List ElementMaterial) (s : String),
    s ∈ acc.map (fun x => x.element) →
      s ∈ (firstWins entries allowed acc).map (fun x => x.element)
  | [], _, _, _, h => h
  | e :: es, allowed, acc, s, h => by
    unfold firstWins
    split_ifs with hc
    · exact firstWins_mono es allowed _ s (by simp [h])
    · exact firstWins_mono es allowed acc s h

theorem firstWins_nodup : ∀ (entries : List ElementMaterial) (allowed : List String)
    (acc : List ElementMaterial),
    (acc.map (fun x => x.element)).Nodup →
      ((firstWins entries allowed acc).map (fun x => x.element)).Nodup
  | [], _, _, h => h
  | e :: es, allowed, acc, h => by
    unfold firstWins
    split_ifs with hc
    · refine firstWins_nodup es allowed _ ?_
      rw [List.map_append, List.map_singleton]
      refine List.nodup_append.mpr ⟨h, List.nodup_singleton _, ?_⟩
      intro a ha hb
      rw [List.mem_singleton] at hb
      exact hc.2 (hb ▸ ha)
    · exact firstWins_nodup es allowed acc h

theorem firstWins_mem_spec : ∀ (entries : List ElementMaterial) (allowed : List String)
    (acc : List ElementMaterial), ∀ e ∈ firstWins entries allowed acc,
    e ∈ acc ∨ (e.element ∈ allowed ∧ e.element ∉ acc.map (fun x => x.element) ∧
      find_material_from_element entries e.element = some e.material)
  | [], _, _, e, he => Or.inl he
  | e0 :: es, allowed, acc, e, he => by
    rw [firstWins] at he
    split_ifs at he with hc
    · rcases firstWins_mem_spec es allowed (acc ++ [e0]) e he with hin | ⟨ha, hnm, hfind⟩
      · rcases List.mem_append.mp hin with hin | hin
        · exact Or.inl hin
        · rw [List.mem_singleton.mp hin]
          refine Or.inr ⟨hc.1, hc.2, ?_⟩
          unfold find_material_from_element
          rw [if_pos rfl]
      · have hne : e.element ≠ e0.element := fun heq =>
          hnm (by rw [List.map_append, List.map_singleton]; simp [heq])
        refine Or.inr ⟨ha, fun hm => hnm (by rw [List.map_append]; simp [hm]), ?_⟩
        unfold find_material_from_element
        rw [if_neg (fun heq => hne heq.symm)]
        exact hfind
    · rcases firstWins_mem_spec es allowed acc e he with hin | ⟨ha, hnm, hfind⟩
      · exact Or.inl hin
      · have hne : e.element ≠ e0.element := by
          intro heq
          exact hc ⟨heq ▸ ha, heq ▸ hnm⟩
        refine Or.inr ⟨ha, hnm, ?_⟩
        unfold find_material_from_element
        rw [if_neg (fun heq => hne heq.symm)]
        exact hfind

theorem firstWins_complete : ∀ (entries : List ElementMaterial) (allowed : List String)
    (acc : List ElementMaterial) (s : String), s ∈ allowed →
    (s ∈ acc.map (fun x => x.element) ∨
      (find_material_from_element entries s).isSome = true) →
    s ∈ (firstWins entries allowed acc).map (fun x => x.element)
  | [], _, acc, s, _, h => by
    rcases h with h | h
    · exact h
    · simp [find_material_from_element] at h
  | e0 :: es, allowed, acc, s, hs, h => by
    unfold firstWins
    split_ifs with hc
    · refine firstWins_complete es allowed (acc ++ [e0]) s hs ?_
      by_cases heq : e0.element = s
      · exact Or.inl (by rw [List.map_append]; simp [heq])
      · rcases h with h | h
        · exact Or.inl (by rw [List.map_append]; simp [h])
        · rw [find_material_from_element, if_neg heq] at h
          exact Or.inr h
    · refine firstWins_complete es allowed acc s hs ?_
      by_cases heq : e0.element = s
      · rcases h with h | h
        · exact Or.inl h
        · rw [not_and_or] at hc
          rcases hc with hc | hc
          · exact absurd (heq ▸ hs) hc
          · rw [not_not] at hc
            exact Or.inl (heq ▸ hc)
      · rcases h with h | h
        · exact Or.inl h
        · rw [find_material_from_element, if_neg heq] at h
          exact Or.inr h

theorem import_materials_char (scene : List MolObj) (mol : MolObj) (allowed : List String)
    (hem : mol.element_materials = []) :
    ∃ mol', import_materials scene mol allowed = .ok mol' ∧
      mol'.element_materials = firstWins (validEntries scene) allowed [] := by
  simp only [import_materials]
  rw [if_neg (by simp [hem])]
  refine ⟨_, rfl, ?_⟩
  rw [foldl_importFromMol_eq, importEntry_foldl_em, hem]
  rfl

/-! ### The colour assignment called twice -/

theorem check_element_second_call (mol : MolObj) (obj1 obj2 : Atom) (ctr : ℕ)
    (h : obj2.element = obj1.element) :
    (check_element_and_assign_material
        (check_element_and_assign_material mol obj1 ctr).mol obj2
        (check_element_and_assign_material mol obj1 ctr).ctr).mol =
      (check_element_and_assign_material mol obj1 ctr).mol ∧
    ∃ mat,
      (check_element_and_assign_material mol obj1 ctr).obj.materials.getLast? = some mat ∧
      (check_element_and_assign_material
        (check_element_and_assign_material mol obj1 ctr).mol obj2
        (check_element_and_assign_material mol obj1 ctr).ctr).obj.materials.getLast? =
        some mat := by
  by_cases hmem : obj1.element ∈ mol.element_materials.map (fun x => x.element)
  · obtain ⟨m, hm⟩ := find_material_isSome_of_mem mol.element_materials obj1.element hmem
    have hr1 : check_element_and_assign_material mol obj1 ctr =
        ⟨mol, { obj1 with materials := obj1.materials ++ [m] }, ctr⟩ := by
      simp only [check_element_and_assign_material]
      rw [if_neg (by simpa using hmem), hm]
      rfl
    rw [hr1]
    have hr2 : check_element_and_assign_material mol obj2 ctr =
        ⟨mol, { obj2 with materials := obj2.materials ++ [m] }, ctr⟩ := by
      simp only [check_element_and_assign_material]
      rw [h, if_neg (by simpa using hmem), hm]
      rfl
    rw [hr2]
    exact ⟨rfl, m, by simp, by simp⟩
  · have hr1 : check_element_and_assign_material mol obj1 ctr =
        ⟨{ mol with element_materials :=
            mol.element_materials ++ [({ element := obj1.element, material := ⟨ctr, true⟩ } : ElementMaterial)] },
          { obj1 with materials := obj1.materials ++ [⟨ctr, true⟩] }, ctr + 1⟩ := by
      simp only [check_element_and_assign_material]
      rw [if_pos (by simpa using hmem),
        molviz_add_element_material_not_mem _ _ (by simpa using hmem)]
    rw [hr1]
    have hmem2 : obj2.element ∈
        (mol.element_materials ++ [({ element := obj1.element, material := ⟨ctr, true⟩ } : ElementMaterial)]).map
          (fun x => x.element) := by
      rw [List.map_append, h]
      simp
    have hfind2 : find_material_from_element
        (mol.element_materials ++ [({ element := obj1.element, material := ⟨ctr, true⟩ } : ElementMaterial)]) obj2.element =
        some ⟨ctr, true⟩ := by
      rw [h]
      exact find_material_append_right mol.element_materials { element := obj1.element, material := ⟨ctr, true⟩ } hmem
    have hr2 : check_element_and_assign_material
        ({ mol with element_materials :=
            mol.element_materials ++ [({ element := obj1.element, material := ⟨ctr, true⟩ } : ElementMaterial)] } : MolObj) obj2 (ctr + 1) =
        ⟨{ mol with element_materials :=
            mol.element_materials ++ [({ element := obj1.element, material := ⟨ctr, true⟩ } : ElementMaterial)] },
          { obj2 with materials := obj2.materials ++ [⟨ctr, true⟩] }, ctr + 1⟩ := by
      simp only [check_element_and_assign_material]
      rw [if_neg (not_not_intro hmem2), hfind2]
      rfl
    rw [hr2]
    exact ⟨rfl, ⟨ctr, true⟩, by simp, by simp⟩

theorem execute_second_degenerate (sc : Bool) (name : String) (scene0 : List MolObj)
    (ctr0 : ℕ)
    (pre1 names1 atomLines1 bondLines1 post1 names2 atomLines2 goodBonds2 after : List String)
    (ml1 al1 bl1 ml2 al2 bl2 bad : String)
    (hml1 : MolMarkerLine ml1) (hal1 : AtomMarkerLine al1) (hbl1 : BondMarkerLine bl1)
    (hml2 : MolMarkerLine ml2) (hal2 : AtomMarkerLine al2) (hbl2 : BondMarkerLine bl2)
    (hpre1 : ∀ l ∈ pre1, SkipWF l) (hnames1 : ∀ l ∈ names1, SkipWF l)
    (hnames2 : ∀ l ∈ names2, SkipWF l)
    (hatoms1 : ∀ l ∈ atomLines1, AtomLineWF l)
    (hbonds1 : ∀ l ∈ bondLines1, BondLineWF (atomLines1.map atomRecOf) l)
    (hpost1 : ∀ l ∈ post1, ShortLineWF l)
    (hatoms2 : ∀ l ∈ atomLines2, AtomLineWF l)
    (hbonds2 : ∀ l ∈ goodBonds2, BondLineWF (atomLines2.map atomRecOf) l)
    (hbad : DegenerateBondLine (atomLines2.map atomRecOf) bad) :
    ∃ m1, execute (pre1 ++ [ml1] ++ names1 ++ [al1] ++ atomLines1 ++ bl1 ::
        (bondLines1 ++ post1 ++ ml2 :: (names2 ++ [al2] ++ atomLines2 ++ bl2 ::
          (goodBonds2 ++ bad :: after)))) sc name scene0 ctr0 =
        ⟨scene0 ++ [m1], .finished .corruptedCoordinates⟩ ∧
      m1.atoms.map atomKey = atomLines1.map atomRecOf ∧
      m1.bonds.map bondKey = bondLines1.map (bondRecOf (atomLines1.map atomRecOf)) := by
  obtain ⟨hml1M, hml1Mr, hml1A, hml1B⟩ := hml1
  obtain ⟨hal1A, hal1M, hal1Mr⟩ := hal1
  obtain ⟨hbl1B, hbl1A, hbl1M, hbl1Mr⟩ := hbl1
  obtain ⟨hml2M, hml2Mr, hml2A, hml2B⟩ := hml2
  obtain ⟨hal2A, hal2M, hal2Mr⟩ := hal2
  obtain ⟨hbl2B, hbl2A, hbl2M, hbl2Mr⟩ := hbl2
  set cM := after.countP (fun l => strContains l "@<TRIPOS>MOLECULE") with hcM
  have hcount : (pre1 ++ [ml1] ++ names1 ++ [al1] ++ atomLines1 ++ bl1 ::
      (bondLines1 ++ post1 ++ ml2 :: (names2 ++ [al2] ++ atomLines2 ++ bl2 ::
        (goodBonds2 ++ bad :: after)))).countP
      (fun l => strContains l "@<TRIPOS>MOLECULE") = cM + 2 := by
    simp only [List.countP_append, List.countP_cons,
      countP_marker_zero pre1 (fun l hl => (hpre1 l hl).2.2),
      countP_marker_zero names1 (fun l hl => (hnames1 l hl).2.2),
      countP_marker_zero names2 (fun l hl => (hnames2 l hl).2.2),
      countP_marker_zero atomLines1 (fun l hl => (hatoms1 l hl).1.2.2.2),
      countP_marker_zero atomLines2 (fun l hl => (hatoms2 l hl).1.2.2.2),
      countP_marker_zero bondLines1 (fun l hl => (hbonds1 l hl).1.2.2.2),
      countP_marker_zero goodBonds2 (fun l hl => (hbonds2 l hl).1.2.2.2),
      countP_marker_zero post1 (fun l hl => (hpost1 l hl).1.2.2.2)]
    simp [hml1Mr, hml2Mr, hal1Mr, hbl1Mr, hal2Mr, hbl2Mr, hbad.1.2.2.2]
    omega
  obtain ⟨m1, ctr1, hiter1, hak1, hbk1, hnm1⟩ :=
    execLoop_iter_brk (pre1 ++ [ml1] ++ names1 ++ [al1] ++ atomLines1 ++ bl1 ::
        (bondLines1 ++ post1 ++ ml2 :: (names2 ++ [al2] ++ atomLines2 ++ bl2 ::
          (goodBonds2 ++ bad :: after)))) sc name (cM + 1) 0 scene0 ctr0
      pre1 names1 atomLines1 bondLines1 post1
      (names2 ++ [al2] ++ atomLines2 ++ bl2 :: (goodBonds2 ++ bad :: after))
      ml1 al1 bl1 ml2 (by rw [List.drop_zero])
      hpre1 hnames1 hml1A hml1B hal1A hbl1B hbl1A hml2M hatoms1 hbonds1 hpost1
  have hdrop2 : (pre1 ++ [ml1] ++ names1 ++ [al1] ++ atomLines1 ++ bl1 ::
      (bondLines1 ++ post1 ++ ml2 :: (names2 ++ [al2] ++ atomLines2 ++ bl2 ::
        (goodBonds2 ++ bad :: after)))).drop
      (0 + (pre1.length + names1.length + atomLines1.length +
        bondLines1.length + post1.length + 3)) =
      [] ++ [ml2] ++ names2 ++ [al2] ++ atomLines2 ++ bl2 ::
        (goodBonds2 ++ bad :: after) := by
    have h1 : pre1 ++ [ml1] ++ names1 ++ [al1] ++ atomLines1 ++ bl1 ::
        (bondLines1 ++ post1 ++ ml2 :: (names2 ++ [al2] ++ atomLines2 ++ bl2 ::
          (goodBonds2 ++ bad :: after))) =
        (pre1 ++ [ml1] ++ names1 ++ [al1] ++ atomLines1 ++ [bl1] ++ bondLines1 ++ post1) ++
          (ml2 :: (names2 ++ [al2] ++ atomLines2 ++ bl2 ::
            (goodBonds2 ++ bad :: after))) := by
      simp
    have h2 : 0 + (pre1.length + names1.length + atomLines1.length +
        bondLines1.length + post1.length + 3) =
        (pre1 ++ [ml1] ++ names1 ++ [al1] ++ atomLines1 ++ [bl1] ++
          bondLines1 ++ post1).length := by
      simp
      omega
    rw [h1, h2, List.drop_left]
    simp
  have hiter2 : execLoop (pre1 ++ [ml1] ++ names1 ++ [al1] ++ atomLines1 ++ bl1 ::
      (bondLines1 ++ post1 ++ ml2 :: (names2 ++ [al2] ++ atomLines2 ++ bl2 ::
        (goodBonds2 ++ bad :: after)))) sc name (cM + 1)
      (0 + (pre1.length + names1.length + atomLines1.length +
        bondLines1.length + post1.length + 3)) (scene0 ++ [m1]) ctr1 =
      ⟨scene0 ++ [m1], .finished .corruptedCoordinates⟩ :=
    execLoop_iter_degenerate _ sc name cM _ (scene0 ++ [m1]) ctr1
      [] names2 atomLines2 goodBonds2 after ml2 al2 bl2 bad hdrop2
      (fun l hl => absurd hl (List.not_mem_nil l)) hnames2 hml2A hml2B hal2A hbl2B hbl2A
      hatoms2 hbonds2 hbad
  refine ⟨m1, ?_, hak1, hbk1⟩
  simp only [execute]
  rw [hcount, if_neg (by omega : ¬(cM + 2 = 0))]
  have hiter1' : execLoop (pre1 ++ [ml1] ++ names1 ++ [al1] ++ atomLines1 ++ bl1 ::
      (bondLines1 ++ post1 ++ ml2 :: (names2 ++ [al2] ++ atomLines2 ++ bl2 ::
        (goodBonds2 ++ bad :: after)))) sc name (cM + 2) 0 scene0 ctr0 =
      execLoop (pre1 ++ [ml1] ++ names1 ++ [al1] ++ atomLines1 ++ bl1 ::
        (bondLines1 ++ post1 ++ ml2 :: (names2 ++ [al2] ++ atomLines2 ++ bl2 ::
          (goodBonds2 ++ bad :: after)))) sc name (cM + 1)
        (0 + (pre1.length + names1.length + atomLines1.length +
          bondLines1.length + post1.length + 3)) (scene0 ++ [m1]) ctr1 := hiter1
  rw [hiter1', hiter2]

/-! ### The extraction pass only depends on a molecule's observable structure -/

theorem find_atom_congr (a1 a2 : List Atom) (i : ℤ)
    (h : a1.map atomKey = a2.map atomKey) :
    (find_atom_from_id a1 i).map atomKey = (find_atom_from_id a2 i).map atomKey := by
  rw [← resolveRec_map_atomKey, ← resolveRec_map_atomKey, h]

theorem atomStep_congr (m n : MolObj) (c d : ℕ) (sline : String)
    (hA : m.atoms.map atomKey = n.atoms.map atomKey)
    (hfm : AtomsFresh m.atoms c) (hfn : AtomsFresh n.atoms d) :
    (∃ e, atomStep m c sline = .error e ∧ atomStep n d sline = .error e) ∨
    (∃ m1 c1 n1 d1, atomStep m c sline = .ok (m1, c1) ∧ atomStep n d sline = .ok (n1, d1) ∧
      m1.atoms.map atomKey = n1.atoms.map atomKey ∧ m1.bonds = m.bonds ∧ n1.bonds = n.bonds ∧
      m1.name = m.name ∧ n1.name = n.name ∧ AtomsFresh m1.atoms c1 ∧ AtomsFresh n1.atoms d1) := by
  by_cases hlen : 5 ≤ (pySplit sline).length
  · cases hx : pyFloat ((pySplit sline).getD 2 "") with
    | none =>
      left
      refine ⟨.valueError, ?_, ?_⟩ <;>
        (simp only [atomStep]; rw [if_pos hlen, hx])
    | some x =>
      cases hy : pyFloat ((pySplit sline).getD 3 "") with
      | none =>
        left
        refine ⟨.valueError, ?_, ?_⟩ <;>
          (simp only [atomStep]; rw [if_pos hlen, hx, hy])
      | some y =>
        cases hz : pyFloat ((pySplit sline).getD 4 "") with
        | none =>
          left
          refine ⟨.valueError, ?_, ?_⟩ <;>
            (simp only [atomStep]; rw [if_pos hlen, hx, hy, hz])
        | some z =>
          cases hid : pyInt ((pySplit sline).getD 0 "") with
          | none =>
            left
            refine ⟨.valueError, ?_, ?_⟩ <;>
              (simp only [atomStep]; rw [if_pos hlen, hx, hy, hz, hid])
          | some idv =>
            right
            set atom0m : Atom :=
              { objId := c, id := idv,
                element := parse_element_string ((pySplit sline).getD 1 ""),
                location := (x, y, z), materials := [] } with hm0
            set atom0n : Atom :=
              { objId := d, id := idv,
                element := parse_element_string ((pySplit sline).getD 1 ""),
                location := (x, y, z), materials := [] } with hn0
            set rm := check_element_and_assign_material m atom0m (c + 1) with hrmdef
            set rn := check_element_and_assign_material n atom0n (d + 1) with hrndef
            have hrmatoms : rm.mol.atoms = m.atoms := check_element_mol_atoms m atom0m (c + 1)
            have hrnatoms : rn.mol.atoms = n.atoms := check_element_mol_atoms n atom0n (d + 1)
            have hrmobj : rm.obj.objId = c := check_element_obj_objId m atom0m (c + 1)
            have hrnobj : rn.obj.objId = d := check_element_obj_objId n atom0n (d + 1)
            have hrmctr : c + 1 ≤ rm.ctr := (check_element_ctr_le m atom0m (c + 1)).1
            have hrnctr : d + 1 ≤ rn.ctr := (check_element_ctr_le n atom0n (d + 1)).1
            have hnm : rm.obj ∉ rm.mol.atoms := by
              rw [hrmatoms]
              intro hmem
              have hlt := hfm rm.obj hmem
              rw [hrmobj] at hlt
              exact lt_irrefl _ hlt
            have hnn : rn.obj ∉ rn.mol.atoms := by
              rw [hrnatoms]
              intro hmem
              have hlt := hfn rn.obj hmem
              rw [hrnobj] at hlt
              exact lt_irrefl _ hlt
            have haddm : (molviz_add_atom rm.mol.atoms rm.obj).1 = m.atoms ++ [rm.obj] := by
              rw [molviz_add_atom_not_mem _ _ hnm, hrmatoms]
            have haddn : (molviz_add_atom rn.mol.atoms rn.obj).1 = n.atoms ++ [rn.obj] := by
              rw [molviz_add_atom_not_mem _ _ hnn, hrnatoms]
            refine ⟨{ rm.mol with atoms := (molviz_add_atom rm.mol.atoms rm.obj).1 }, rm.ctr,
              { rn.mol with atoms := (molviz_add_atom rn.mol.atoms rn.obj).1 }, rn.ctr,
              ?_, ?_, ?_, ?_, ?_, ?_, ?_, ?_, ?_⟩
            · simp only [atomStep]
              rw [if_pos hlen, hx, hy, hz, hid]
            · simp only [atomStep]
              rw [if_pos hlen, hx, hy, hz, hid]
            · simp only [haddm, haddn, List.map_append, List.map_singleton, hA]
              rw [check_element_obj_key, check_element_obj_key]
              rfl
            · exact check_element_mol_bonds m atom0m (c + 1)
            · exact check_element_mol_bonds n atom0n (d + 1)
            · exact check_element_mol_name m atom0m (c + 1)
            · exact check_element_mol_name n atom0n (d + 1)
            · intro a ha
              rw [haddm] at ha
              rcases List.mem_append.mp ha with ha | ha
              · exact lt_of_lt_of_le (lt_of_lt_of_le (hfm a ha) (Nat.le_succ c)) hrmctr
              · rw [List.mem_singleton.mp ha, hrmobj]
                omega
            · intro a ha
              rw [haddn] at ha
              rcases List.mem_append.mp ha with ha | ha
              · exact lt_of_lt_of_le (lt_of_lt_of_le (hfn a ha) (Nat.le_succ d)) hrnctr
              · rw [List.mem_singleton.mp ha, hrnobj]
                omega
  · right
    exact ⟨m, c, n, d, atomStep_short m c sline (by omega), atomStep_short n d sline (by omega),
      hA, rfl, rfl, rfl, rfl, hfm, hfn⟩

theorem bondStep_congr (m n : MolObj) (c d : ℕ) (sline : String)
    (hA : m.atoms.map atomKey = n.atoms.map atomKey)
    (hB : m.bonds.map bondKey = n.bonds.map bondKey) :
    (∃ m1 n1, bondStep m c sline = .ok m1 (c + 1) ∧ bondStep n d sline = .ok n1 (d + 1) ∧
      m1.atoms = m.atoms ∧ n1.atoms = n.atoms ∧
      m1.bonds.map bondKey = n1.bonds.map bondKey ∧ m1.name = m.name ∧ n1.name = n.name) ∨
    (bondStep m c sline = .ok m c ∧ bondStep n d sline = .ok n d) ∨
    (bondStep m c sline = .degenerate ∧ bondStep n d sline = .degenerate) ∨
    (∃ e, bondStep m c sline = .err e ∧ bondStep n d sline = .err e) := by
  by_cases hlen : 4 ≤ (pySplit sline).length
  case neg =>
    right
    left
    exact ⟨bondStep_short _ _ _ (by omega), bondStep_short _ _ _ (by omega)⟩
  case pos =>
    cases hsid : pyInt ((pySplit sline).getD 1 "") with
    | none =>
      right
      right
      right
      refine ⟨.valueError, ?_, ?_⟩ <;>
        (simp only [bondStep]; rw [if_pos hlen]; simp only [hsid])
    | some sid =>
      cases htid : pyInt ((pySplit sline).getD 2 "") with
      | none =>
        right
        right
        right
        refine ⟨.valueError, ?_, ?_⟩ <;>
          (simp only [bondStep]; rw [if_pos hlen]; simp only [hsid, htid])
      | some tid =>
        have hfs := find_atom_congr m.atoms n.atoms sid hA
        have hft := find_atom_congr m.atoms n.atoms tid hA
        cases hfm1 : find_atom_from_id m.atoms sid with
        | none =>
          have hfn1 : find_atom_from_id n.atoms sid = none := by
            rw [hfm1] at hfs
            exact Option.map_eq_none'.mp hfs.symm
          right
          right
          right
          refine ⟨.attributeError, ?_, ?_⟩
          · simp only [bondStep]
            rw [if_pos hlen]
            simp only [hsid, htid, hfm1]
          · simp only [bondStep]
            rw [if_pos hlen]
            simp only [hsid, htid, hfn1]
        | some s1 =>
          obtain ⟨s2, hs2, hs2k⟩ : ∃ s2, find_atom_from_id n.atoms sid = some s2 ∧
              atomKey s1 = atomKey s2 := by
            rw [hfm1] at hfs
            cases hfn1 : find_atom_from_id n.atoms sid with
            | none =>
              rw [hfn1] at hfs
              simp at hfs
            | some s2 =>
              rw [hfn1] at hfs
              simp only [Option.map_some', Option.some.injEq] at hfs
              exact ⟨s2, rfl, hfs⟩
          cases hfm2 : find_atom_from_id m.atoms tid with
          | none =>
            have hfn2 : find_atom_from_id n.atoms tid = none := by
              rw [hfm2] at hft
              exact Option.map_eq_none'.mp hft.symm
            right
            right
            right
            refine ⟨.attributeError, ?_, ?_⟩
            · simp only [bondStep]
              rw [if_pos hlen]
              simp only [hsid, htid, hfm1, hfm2]
            · simp only [bondStep]
              rw [if_pos hlen]
              simp only [hsid, htid, hs2, hfn2]
          | some t1 =>
            obtain ⟨t2, ht2, ht2k⟩ : ∃ t2, find_atom_from_id n.atoms tid = some t2 ∧
                atomKey t1 = atomKey t2 := by
              rw [hfm2] at hft
              cases hfn2 : find_atom_from_id n.atoms tid with
              | none =>
                rw [hfn2] at hft
                simp at hft
              | some t2 =>
                rw [hfn2] at hft
                simp only [Option.map_some', Option.some.injEq] at hft
                exact ⟨t2, rfl, hft⟩
            have hsloc : s1.location = s2.location := congrArg (fun r => r.2.2) hs2k
            have htloc : t1.location = t2.location := congrArg (fun r => r.2.2) ht2k
            cases hcb : create_bond (q3r s1.location) (q3r t1.location) (8 / 100 : ℝ) with
            | none =>
              have hcb2 : create_bond (q3r s2.location) (q3r t2.location) (8 / 100 : ℝ) =
                  none := by
                rw [← hsloc, ← htloc]
                exact hcb
              right
              right
              left
              constructor
              · simp only [bondStep]
                rw [if_pos hlen]
                simp only [hsid, htid, hfm1, hfm2, hcb]
              · simp only [bondStep]
                rw [if_pos hlen]
                simp only [hsid, htid, hs2, ht2, hcb2]
            | some pose =>
              have hcb2 : create_bond (q3r s2.location) (q3r t2.location) (8 / 100 : ℝ) =
                  some pose := by
                rw [← hsloc, ← htloc]
                exact hcb
              cases hbid : pyInt ((pySplit sline).getD 0 "") with
              | none =>
                right
                right
                right
                refine ⟨.valueError, ?_, ?_⟩
                · simp only [bondStep]
                  rw [if_pos hlen]
                  simp only [hsid, htid, hfm1, hfm2, hcb, hbid]
                · simp only [bondStep]
                  rw [if_pos hlen]
                  simp only [hsid, htid, hs2, ht2, hcb2, hbid]
              | some bid =>
                left
                refine ⟨{ m with bonds := m.bonds ++
                    [{ objId := c, id := bid, source := s1, target := t1, pose := pose }] },
                  { n with bonds := n.bonds ++
                    [{ objId := d, id := bid, source := s2, target := t2, pose := pose }] },
                  ?_, ?_, rfl, rfl, ?_, rfl, rfl⟩
                · simp only [bondStep]
                  rw [if_pos hlen]
                  simp only [hsid, htid, hfm1, hfm2, hcb, hbid]
                · simp only [bondStep]
                  rw [if_pos hlen]
                  simp only [hsid, htid, hs2, ht2, hcb2, hbid]
                · simp only [List.map_append, List.map_singleton, hB, bondKey, hs2k, ht2k]

theorem scanLoop_cons_plain (l : String) (rest : List String) (j : ℕ) (mol : MolObj)
    (aF bF : Bool) (ctr : ℕ)
    (hM : (strContains (pyStrip l) "@<TRIPOS>MOLECULE" && bF) = false)
    (hA : strContains (pyStrip l) "@<TRIPOS>ATOM" = false)
    (hB : strContains (pyStrip l) "@<TRIPOS>BOND" = false) :
    scanLoop (l :: rest) j mol aF bF ctr =
      match (if aF then atomStep mol ctr (pyStrip l) else .ok (mol, ctr)) with
      | .error e => ⟨mol, ctr, .err e⟩
      | .ok (mol1, ctr1) =>
        match (if bF then bondStep mol1 ctr1 (pyStrip l) else .ok mol1 ctr1) with
        | .ok mol2 ctr2 => scanLoop rest (j + 1) mol2 aF bF ctr2
        | .degenerate => ⟨mol1, ctr1, .degenerate⟩
        | .err e => ⟨mol1, ctr1, .err e⟩ := by
  simp only [scanLoop, hM, hA, hB, Bool.false_eq_true, if_false]

theorem atomsFresh_mono (atoms : List Atom) (c c' : ℕ) (h : AtomsFresh atoms c)
    (hle : c ≤ c') : AtomsFresh atoms c' :=
  fun a ha => lt_of_lt_of_le (h a ha) hle

theorem scanLoop_congr : ∀ (lines : List String) (j : ℕ) (m n : MolObj) (aF bF : Bool)
    (c d : ℕ),
    m.atoms.map atomKey = n.atoms.map atomKey →
    m.bonds.map bondKey = n.bonds.map bondKey →
    AtomsFresh m.atoms c → AtomsFresh n.atoms d →
    (scanLoop lines j m aF bF c).exit = (scanLoop lines j n aF bF d).exit ∧
    (scanLoop lines j m aF bF c).mol.atoms.map atomKey =
      (scanLoop lines j n aF bF d).mol.atoms.map atomKey ∧
    (scanLoop lines j m aF bF c).mol.bonds.map bondKey =
      (scanLoop lines j n aF bF d).mol.bonds.map bondKey ∧
    (scanLoop lines j m aF bF c).mol.name = m.name ∧
    (scanLoop lines j n aF bF d).mol.name = n.name
  | [], _, _, _, _, _, _, _, hA, hB, _, _ => ⟨rfl, hA, hB, rfl, rfl⟩
  | l :: rest, j, m, n, aF, bF, c, d, hA, hB, hfm, hfn => by
    by_cases hM : (strContains (pyStrip l) "@<TRIPOS>MOLECULE" && bF) = true
    · have e1 : scanLoop (l :: rest) j m aF bF c = ⟨m, c, .brk j⟩ := by
        simp [scanLoop, hM]
      have e2 : scanLoop (l :: rest) j n aF bF d = ⟨n, d, .brk j⟩ := by
        simp [scanLoop, hM]
      rw [e1, e2]
      exact ⟨rfl, hA, hB, rfl, rfl⟩
    · rw [Bool.not_eq_true] at hM
      by_cases hA' : strContains (pyStrip l) "@<TRIPOS>ATOM" = true
      · have e1 : scanLoop (l :: rest) j m aF bF c = scanLoop rest (j + 1) m true bF c := by
          simp [scanLoop, hM, hA']
        have e2 : scanLoop (l :: rest) j n aF bF d = scanLoop rest (j + 1) n true bF d := by
          simp [scanLoop, hM, hA']
        rw [e1, e2]
        exact scanLoop_congr rest (j + 1) m n true bF c d hA hB hfm hfn
      · rw [Bool.not_eq_true] at hA'
        by_cases hB' : strContains (pyStrip l) "@<TRIPOS>BOND" = true
        · have e1 : scanLoop (l :: rest) j m aF bF c =
              scanLoop rest (j + 1) m false true c := by
            simp [scanLoop, hM, hA', hB']
          have e2 : scanLoop (l :: rest) j n aF bF d =
              scanLoop rest (j + 1) n false true d := by
            simp [scanLoop, hM, hA', hB']
          rw [e1, e2]
          exact scanLoop_congr rest (j + 1) m n false true c d hA hB hfm hfn
        · rw [Bool.not_eq_true] at hB'
          rw [scanLoop_cons_plain l rest j m aF bF c hM hA' hB',
            scanLoop_cons_plain l rest j n aF bF d hM hA' hB']
          cases aF with
          | false =>
            rw [if_neg Bool.false_ne_true, if_neg Bool.false_ne_true]
            dsimp only
            cases bF with
            | false =>
              rw [if_neg Bool.false_ne_true, if_neg Bool.false_ne_true]
              dsimp only
              exact scanLoop_congr rest (j + 1) m n false false c d hA hB hfm hfn
            | true =>
              rw [if_pos rfl, if_pos rfl]
              rcases bondStep_congr m n c d (pyStrip l) hA hB with
                ⟨m1, n1, h1, h2, ham, han, hbmap, hnm, hnn⟩ |
                ⟨h1, h2⟩ | ⟨h1, h2⟩ | ⟨e, h1, h2⟩
              · rw [h1, h2]
                dsimp only
                obtain ⟨g1, g2, g3, g4, g5⟩ := scanLoop_congr rest (j + 1) m1 n1 false true
                  (c + 1) (d + 1) (by rw [ham, han, hA]) hbmap
                  (by rw [ham]; exact atomsFresh_mono _ _ _ hfm (Nat.le_succ c))
                  (by rw [han]; exact atomsFresh_mono _ _ _ hfn (Nat.le_succ d))
                exact ⟨g1, g2, g3, g4.trans hnm, g5.trans hnn⟩
              · rw [h1, h2]
                dsimp only
                exact scanLoop_congr rest (j + 1) m n false true c d hA hB hfm hfn
              · rw [h1, h2]
                exact ⟨rfl, hA, hB, rfl, rfl⟩
              · rw [h1, h2]
                exact ⟨rfl, hA, hB, rfl, rfl⟩
          | true =>
            rw [if_pos rfl, if_pos rfl]
            rcases atomStep_congr m n c d (pyStrip l) hA hfm hfn with
              ⟨e, he1, he2⟩ |
              ⟨m1, c1, n1, d1, hs1, hs2, hA1, hbm, hbn, hnm, hnn, hf1, hf2⟩
            · rw [he1, he2]
              exact ⟨rfl, hA, hB, rfl, rfl⟩
            · rw [hs1, hs2]
              dsimp only
              have hB1 : m1.bonds.map bondKey = n1.bonds.map bondKey := by
                rw [hbm, hbn, hB]
              cases bF with
              | false =>
                rw [if_neg Bool.false_ne_true, if_neg Bool.false_ne_true]
                dsimp only
                obtain ⟨g1, g2, g3, g4, g5⟩ :=
                  scanLoop_congr rest (j + 1) m1 n1 true false c1 d1 hA1 hB1 hf1 hf2
                exact ⟨g1, g2, g3, g4.trans hnm, g5.trans hnn⟩
              | true =>
                rw [if_pos rfl, if_pos rfl]
                rcases bondStep_congr m1 n1 c1 d1 (pyStrip l) hA1 hB1 with
                  ⟨m2, n2, h1, h2, ham, han, hbmap, hm2, hn2⟩ |
                  ⟨h1, h2⟩ | ⟨h1, h2⟩ | ⟨e, h1, h2⟩
                · rw [h1, h2]
                  dsimp only
                  obtain ⟨g1, g2, g3, g4, g5⟩ := scanLoop_congr rest (j + 1) m2 n2 true true
                    (c1 + 1) (d1 + 1) (by rw [ham, han, hA1]) hbmap
                    (by rw [ham]; exact atomsFresh_mono _ _ _ hf1 (Nat.le_succ c1))
                    (by rw [han]; exact atomsFresh_mono _ _ _ hf2 (Nat.le_succ d1))
                  exact ⟨g1, g2, g3, (g4.trans hm2).trans hnm, (g5.trans hn2).trans hnn⟩
                · rw [h1, h2]
                  dsimp only
                  obtain ⟨g1, g2, g3, g4, g5⟩ :=
                    scanLoop_congr rest (j + 1) m1 n1 true true c1 d1 hA1 hB1 hf1 hf2
                  exact ⟨g1, g2, g3, g4.trans hnm, g5.trans hnn⟩
                · rw [h1, h2]
                  exact ⟨rfl, hA1, hB1, hnm, hnn⟩
                · rw [h1, h2]
                  exact ⟨rfl, hA1, hB1, hnm, hnn⟩

theorem scanLoop_absorb (pre1 names1 atomLines1 mid atomLines2 bondLines2 post : List String)
    (ml1 al1 al2 bl2 : String) (mol0 : MolObj) (ctr : ℕ)
    (hatoms0 : mol0.atoms = []) (hbonds0 : mol0.bonds = [])
    (hpre1 : ∀ l ∈ pre1, SkipWF l) (hnames1 : ∀ l ∈ names1, SkipWF l)
    (hml1A : strContains (pyStrip ml1) "@<TRIPOS>ATOM" = false)
    (hml1B : strContains (pyStrip ml1) "@<TRIPOS>BOND" = false)
    (hal1A : strContains (pyStrip al1) "@<TRIPOS>ATOM" = true)
    (hmid : ∀ l ∈ mid, AtomShortWF l)
    (hal2A : strContains (pyStrip al2) "@<TRIPOS>ATOM" = true)
    (hbl2B : strContains (pyStrip bl2) "@<TRIPOS>BOND" = true)
    (hbl2A : strContains (pyStrip bl2) "@<TRIPOS>ATOM" = false)
    (hatoms1 : ∀ l ∈ atomLines1, AtomLineWF l)
    (hatoms2 : ∀ l ∈ atomLines2, AtomLineWF l)
    (hbonds2 : ∀ l ∈ bondLines2, BondLineWF ((atomLines1 ++ atomLines2).map atomRecOf) l)
    (hpost : ∀ l ∈ post, ShortLineWF l) :
    ∃ mol' ctr',
      scanLoop (pre1 ++ [ml1] ++ names1 ++ [al1] ++ atomLines1 ++ mid ++ [al2] ++
          atomLines2 ++ bl2 :: (bondLines2 ++ post)) 0 mol0 false false ctr =
        ⟨mol', ctr', .eof⟩ ∧
      mol'.atoms.map atomKey = (atomLines1 ++ atomLines2).map atomRecOf ∧
      mol'.bonds.map bondKey =
        bondLines2.map (bondRecOf ((atomLines1 ++ atomLines2).map atomRecOf)) ∧
      mol'.name = mol0.name ∧ ctr ≤ ctr' := by
  have hf0 : AtomsFresh mol0.atoms ctr := by
    rw [hatoms0]
    exact fun a ha => absurd ha (List.not_mem_nil a)
  obtain ⟨mol1, ctr1, hb1, hk1, hbo1, hn1, hf1, hle1⟩ :=
    scanLoop_atoms_batch atomLines1
      (mid ++ ([al2] ++ (atomLines2 ++ bl2 :: (bondLines2 ++ post))))
      (0 + pre1.length + 1 + names1.length + 1) mol0 ctr hatoms1 hf0
  obtain ⟨mol2, ctr2, hb2, hk2, hbo2, hn2, hf2, hle2⟩ :=
    scanLoop_atoms_batch atomLines2 (bl2 :: (bondLines2 ++ post))
      (0 + pre1.length + 1 + names1.length + 1 + atomLines1.length + mid.length + 1)
      mol1 ctr1 hatoms2 hf1
  have hk2' : mol2.atoms.map atomKey = (atomLines1 ++ atomLines2).map atomRecOf := by
    rw [hk2, hk1, hatoms0]
    simp
  have hbonds2' : ∀ l ∈ bondLines2, BondLineWF (mol2.atoms.map atomKey) l := by
    rw [hk2']
    exact hbonds2
  obtain ⟨mol3, ctr3, hb3, ha3, hn3, hbk3, hle3⟩ :=
    scanLoop_bonds_batch bondLines2 post
      (0 + pre1.length + 1 + names1.length + 1 + atomLines1.length + mid.length + 1 +
        atomLines2.length + 1) mol2 ctr2 hbonds2'
  refine ⟨mol3, ctr3, ?_, by rw [ha3, hk2'], ?_,
    ((hn3.trans hn2).trans hn1), le_trans hle1 (le_trans hle2 hle3)⟩
  · rw [show pre1 ++ [ml1] ++ names1 ++ [al1] ++ atomLines1 ++ mid ++ [al2] ++
        atomLines2 ++ bl2 :: (bondLines2 ++ post) =
        pre1 ++ ([ml1] ++ (names1 ++ ([al1] ++ (atomLines1 ++ (mid ++ ([al2] ++
          (atomLines2 ++ bl2 :: (bondLines2 ++ post)))))))) by simp,
      scanLoop_skip pre1 _ 0 mol0 ctr hpre1, List.singleton_append]
    have hstep1 : scanLoop (ml1 :: (names1 ++ ([al1] ++ (atomLines1 ++ (mid ++ ([al2] ++
          (atomLines2 ++ bl2 :: (bondLines2 ++ post)))))))) (0 + pre1.length)
          mol0 false false ctr =
        scanLoop (names1 ++ ([al1] ++ (atomLines1 ++ (mid ++ ([al2] ++
          (atomLines2 ++ bl2 :: (bondLines2 ++ post))))))) (0 + pre1.length + 1)
          mol0 false false ctr := by
      simp [scanLoop, hml1A, hml1B]
    rw [hstep1, scanLoop_skip names1 _ (0 + pre1.length + 1) mol0 ctr hnames1,
      List.singleton_append,
      scanLoop_cons_atomMarker al1 _ (0 + pre1.length + 1 + names1.length) mol0 false false ctr
        hal1A (Or.inr rfl),
      hb1,
      scanLoop_atomshort mid ([al2] ++ (atomLines2 ++ bl2 :: (bondLines2 ++ post)))
        (0 + pre1.length + 1 + names1.length + 1 + atomLines1.length) mol1 ctr1 hmid,
      List.singleton_append,
      scanLoop_cons_atomMarker al2 _
        (0 + pre1.length + 1 + names1.length + 1 + atomLines1.length + mid.length)
        mol1 true false ctr1 hal2A (Or.inr rfl),
      hb2,
      scanLoop_cons_bondMarker bl2 (bondLines2 ++ post)
        (0 + pre1.length + 1 + names1.length + 1 + atomLines1.length + mid.length + 1 +
          atomLines2.length) mol2 true false ctr2 hbl2B hbl2A (Or.inr rfl),
      hb3, ← List.append_nil post,
      scanLoop_bondshort post []
        (0 + pre1.length + 1 + names1.length + 1 + atomLines1.length + mid.length + 1 +
          atomLines2.length + 1 + bondLines2.length) mol3 ctr3 hpost,
      scanLoop_nil]
  · rw [hbk3, hbo2, hbo1, hbonds0, hk2']
    simp

theorem execLoop_iter_absorb (lines : List String) (name : String) (n sl : ℕ)
    (scene : List MolObj) (ctr : ℕ)
    (pre1 names1 atomLines1 mid atomLines2 bondLines2 post : List String)
    (ml1 al1 al2 bl2 : String)
    (hdrop : lines.drop sl = pre1 ++ [ml1] ++ names1 ++ [al1] ++ atomLines1 ++ mid ++
      [al2] ++ atomLines2 ++ bl2 :: (bondLines2 ++ post))
    (hpre1 : ∀ l ∈ pre1, SkipWF l) (hnames1 : ∀ l ∈ names1, SkipWF l)
    (hml1A : strContains (pyStrip ml1) "@<TRIPOS>ATOM" = false)
    (hml1B : strContains (pyStrip ml1) "@<TRIPOS>BOND" = false)
    (hal1A : strContains (pyStrip al1) "@<TRIPOS>ATOM" = true)
    (hmid : ∀ l ∈ mid, AtomShortWF l)
    (hal2A : strContains (pyStrip al2) "@<TRIPOS>ATOM" = true)
    (hbl2B : strContains (pyStrip bl2) "@<TRIPOS>BOND" = true)
    (hbl2A : strContains (pyStrip bl2) "@<TRIPOS>ATOM" = false)
    (hatoms1 : ∀ l ∈ atomLines1, AtomLineWF l)
    (hatoms2 : ∀ l ∈ atomLines2, AtomLineWF l)
    (hbonds2 : ∀ l ∈ bondLines2, BondLineWF ((atomLines1 ++ atomLines2).map atomRecOf) l)
    (hpost : ∀ l ∈ post, ShortLineWF l) :
    ∃ mol' ctr', execLoop lines false name (n + 1) sl scene ctr =
        execLoop lines false name n sl (scene ++ [mol']) ctr' ∧
      mol'.atoms.map atomKey = (atomLines1 ++ atomLines2).map atomRecOf ∧
      mol'.bonds.map bondKey =
        bondLines2.map (bondRecOf ((atomLines1 ++ atomLines2).map atomRecOf)) ∧
      mol'.name = (mkEmpty name 0).name := by
  obtain ⟨mol', ctr', hscan, hak, hbk, hnm, hle⟩ :=
    scanLoop_absorb pre1 names1 atomLines1 mid atomLines2 bondLines2 post ml1 al1 al2 bl2
      (mkEmpty name ctr) (ctr + 1) rfl rfl hpre1 hnames1 hml1A hml1B hal1A hmid hal2A
      hbl2B hbl2A hatoms1 hatoms2 hbonds2 hpost
  refine ⟨mol', ctr', ?_, hak, hbk, by rw [hnm]; rfl⟩
  simp only [execLoop]
  have hseed : seedMolecule (lines.drop sl) false scene (mkEmpty name ctr) =
      .ok (mkEmpty name ctr) := rfl
  rw [hseed, hdrop]
  dsimp only
  rw [hscan]

/-! ### The element parser agrees with the spec's description -/

theorem singleton_not_isEmpty (c : Char) : (String.singleton c).isEmpty = false := by
  rw [Bool.eq_false_iff]
  intro h
  have h2 := congrArg String.data ((String.isEmpty_iff (String.singleton c)).mp h)
  simp [String.singleton] at h2

theorem elementLoop_phase2 : ∀ (cs : List Char) (c : Char),
    elementLoop cs (String.singleton c) =
      match specFirstLower cs with
      | none => String.singleton c
      | some d => (String.singleton c).push d
  | [], _ => rfl
  | a :: cs, c => by
    have h1 : ((String.singleton c).isEmpty && a.isUpper) = false := by
      rw [singleton_not_isEmpty]
      rfl
    have h2 : (!(String.singleton c).isEmpty && a.isLower) = a.isLower := by
      rw [singleton_not_isEmpty]
      rfl
    rw [elementLoop, specFirstLower]
    simp only [h1, Bool.false_eq_true, if_false, h2]
    by_cases h : a.isLower
    · rw [if_pos h, if_pos h]
    · rw [Bool.not_eq_true] at h
      simp only [h, Bool.false_eq_true, if_false]
      exact elementLoop_phase2 cs c

theorem elementLoop_phase1 : ∀ (cs : List Char),
    elementLoop cs "" =
      match specFirstUpper cs with
      | none => ""
      | some (c, rest) =>
        match specFirstLower rest with
        | none => String.singleton c
        | some d => (String.singleton c).push d
  | [] => rfl
  | a :: cs => by
    rw [elementLoop, specFirstUpper]
    by_cases h : a.isUpper
    · have h1 : ("".isEmpty && a.isUpper) = true := by rw [h]; rfl
      rw [if_pos h1, if_pos h]
      exact elementLoop_phase2 cs a
    · rw [Bool.not_eq_true] at h
      have h1 : ("".isEmpty && a.isUpper) = false := by rw [h]; rfl
      have h2 : (!"".isEmpty && a.isLower) = false := rfl
      simp only [h1, h2, Bool.false_eq_true, if_false, h]
      exact elementLoop_phase1 cs

theorem parse_element_string_eq_spec (s : String) :
    parse_element_string s = normalizeSpec s := by
  rw [parse_element_string, normalizeSpec]
  exact elementLoop_phase1 _

/-! ### The claims -/

/-- C3 (code bug): the spec promises that short or empty lines in the atom section
are silently skipped by both passes and that parsing never raises; but the
element-collection pre-pass `list_materials_in_molecule` reads field 1 of a line
inside the atom section before checking the field count, so an empty trailing
line makes it raise `IndexError`, while the main extraction pass (`atomStep`,
which tests `len(cline) >= 5` first) does skip that same line silently. -/
theorem C3_prepass_short_line_crash :
    list_materials_in_molecule ["@<TRIPOS>ATOM", "1 C1 0.0 0.0 0.0", ""] =
      .error .indexError ∧
    atomStep (mkEmpty "" 0) 1 (pyStrip "") = .ok (mkEmpty "" 0, 1) :=
  ⟨rfl, rfl⟩

/-- C4: `create_bond` returns `None` exactly when source and target coincide;
otherwise it returns a cylinder pose whose depth is the Euclidean distance of the
two points (strictly positive), whose location is the exact midpoint, whose
`rotation_euler[1]` (pitch) is `acos(dz / dist)` and whose `rotation_euler[2]`
(yaw) is `atan2(dy, dx)`. -/
theorem C4_compute_pose (s t : ℝ × ℝ × ℝ) (r : ℝ) :
    (create_bond s t r = none ↔ s = t) ∧
    (s ≠ t → ∃ p, create_bond s t r = some p ∧
      p.depth = dist (pt3 s) (pt3 t) ∧ 0 < p.depth ∧
      p.location = ((s.1 + t.1) / 2, (s.2.1 + t.2.1) / 2, (s.2.2 + t.2.2) / 2) ∧
      p.rotY = Real.arccos ((t.2.2 - s.2.2) / p.depth) ∧
      p.rotZ = atan2 (t.2.1 - s.2.1) (t.1 - s.1)) := by
  refine ⟨create_bond_eq_none_iff s t r, fun h => ?_⟩
  refine ⟨_, create_bond_eq_some s t r h, (dist_pt3 s t).symm, ?_, ?_, rfl, rfl⟩
  · exact lt_of_le_of_ne (Real.sqrt_nonneg _)
      (fun h0 => h ((bondDist_eq_zero_iff s t).mp h0.symm))
  · exact Prod.ext_iff.mpr ⟨by ring, Prod.ext_iff.mpr ⟨by ring, by ring⟩⟩

/-- C6: `parse_element_string` computes exactly the algorithm the spec describes
for `normalize` (drop ASCII digits, first uppercase letter, then the next
lowercase letter, then stop), it never fails and its output length is at most 2,
and the five worked examples of the spec hold. -/
theorem C6_normalize (s : String) :
    parse_element_string s = normalizeSpec s ∧
    (parse_element_string s).length ≤ 2 ∧
    parse_element_string "C.3" = "C" ∧
    parse_element_string "Na" = "Na" ∧
    parse_element_string "O2" = "O" ∧
    parse_element_string "CL1" = "C" ∧
    parse_element_string "123" = "" :=
  ⟨parse_element_string_eq_spec s, parse_element_string_length_le s,
    by decide, by decide, by decide, by decide, by decide⟩

/-- C7: calling `check_element_and_assign_material` twice with atoms of the same
element appends the identical material to both atoms, and the second call leaves
the registry exactly as the first call left it, in particular with the same number
of entries. -/
theorem C7_assign_idempotent (mol : MolObj) (obj1 obj2 : Atom) (ctr : ℕ)
    (h : obj2.element = obj1.element) :
    (check_element_and_assign_material
        (check_element_and_assign_material mol obj1 ctr).mol obj2
        (check_element_and_assign_material mol obj1 ctr).ctr).mol.element_materials.length =
      (check_element_and_assign_material mol obj1 ctr).mol.element_materials.length ∧
    (check_element_and_assign_material
        (check_element_and_assign_material mol obj1 ctr).mol obj2
        (check_element_and_assign_material mol obj1 ctr).ctr).mol =
      (check_element_and_assign_material mol obj1 ctr).mol ∧
    ∃ mat,
      (check_element_and_assign_material mol obj1 ctr).obj.materials.getLast? = some mat ∧
      (check_element_and_assign_material
        (check_element_and_assign_material mol obj1 ctr).mol obj2
        (check_element_and_assign_material mol obj1 ctr).ctr).obj.materials.getLast? =
        some mat := by
  obtain ⟨h1, h2⟩ := check_element_second_call mol obj1 obj2 ctr h
  exact ⟨by rw [h1], h1, h2⟩

theorem C7_assign_idempotent_witness :
    (check_element_and_assign_material
        (check_element_and_assign_material (mkEmpty "" 0) ⟨1, 1, "C", (0, 0, 0), []⟩ 5).mol
        ⟨2, 2, "C", (1, 0, 0), []⟩
        (check_element_and_assign_material (mkEmpty "" 0) ⟨1, 1, "C", (0, 0, 0), []⟩
          5).ctr).mol.element_materials.length =
      (check_element_and_assign_material (mkEmpty "" 0) ⟨1, 1, "C", (0, 0, 0), []⟩
        5).mol.element_materials.length ∧
    (check_element_and_assign_material
        (check_element_and_assign_material (mkEmpty "" 0) ⟨1, 1, "C", (0, 0, 0), []⟩ 5).mol
        ⟨2, 2, "C", (1, 0, 0), []⟩
        (check_element_and_assign_material (mkEmpty "" 0) ⟨1, 1, "C", (0, 0, 0), []⟩
          5).ctr).mol =
      (check_element_and_assign_material (mkEmpty "" 0) ⟨1, 1, "C", (0, 0, 0), []⟩ 5).mol ∧
    ∃ mat,
      (check_element_and_assign_material (mkEmpty "" 0) ⟨1, 1, "C", (0, 0, 0), []⟩
        5).obj.materials.getLast? = some mat ∧
      (check_element_and_assign_material
        (check_element_and_assign_material (mkEmpty "" 0) ⟨1, 1, "C", (0, 0, 0), []⟩ 5).mol
        ⟨2, 2, "C", (1, 0, 0), []⟩
        (check_element_and_assign_material (mkEmpty "" 0) ⟨1, 1, "C", (0, 0, 0), []⟩
          5).ctr).obj.materials.getLast? = some mat :=
  C7_assign_idempotent (mkEmpty "" 0) ⟨1, 1, "C", (0, 0, 0), []⟩ ⟨2, 2, "C", (1, 0, 0), []⟩
    5 rfl

/-- C9: a file containing no `@<TRIPOS>MOLECULE` marker makes `execute` count zero
molecules, report `NoMoleculesFound` and return finished with the scene unchanged:
no molecule object is created and no exception is raised. -/
theorem C9_no_molecules_found (lines : List String) (sc : Bool) (name : String)
    (scene0 : List MolObj) (ctr0 : ℕ)
    (h : ∀ l ∈ lines, strContains l "@<TRIPOS>MOLECULE" = false) :
    execute lines sc name scene0 ctr0 = ⟨scene0, .finished .noMoleculesFound⟩ := by
  simp only [execute]
  rw [countP_marker_zero lines h, if_pos rfl]

theorem C9_no_molecules_found_witness :
    execute ["hello", "world"] true "" [] 0 = ⟨[], .finished .noMoleculesFound⟩ :=
  C9_no_molecules_found ["hello", "world"] true "" [] 0 (by decide)

/-- C1: for a single-molecule file with at least one well-formed atom line (five or
more fields) and bond lines that resolve to atoms at distinct locations, one
`execute` run adds exactly one molecule to the scene, with the atom records of the
atom lines in file order, the bond records of the bond lines in file order, and a
finished `moleculeCreated` report.  (The original claim omitted the distinct-
location requirement; `C1_degenerate_counterexample` shows it is needed.) -/
theorem C1_single_molecule_roundtrip (sc : Bool) (name : String) (scene0 : List MolObj)
    (ctr0 : ℕ) (pre names atomLines bondLines post : List String) (ml al bl : String)
    (hml : MolMarkerLine ml) (hal : AtomMarkerLine al) (hbl : BondMarkerLine bl)
    (hpre : ∀ l ∈ pre, SkipWF l) (hnames : ∀ l ∈ names, SkipWF l)
    (hN : 1 ≤ atomLines.length)
    (hatoms : ∀ l ∈ atomLines, AtomLineWF l)
    (hbonds : ∀ l ∈ bondLines, BondLineWF (atomLines.map atomRecOf) l)
    (hpost : ∀ l ∈ post, ShortLineWF l) :
    ∃ m, execute (pre ++ [ml] ++ names ++ [al] ++ atomLines ++ bl ::
        (bondLines ++ post ++ [])) sc name scene0 ctr0 =
        ⟨scene0 ++ [m], .finished .moleculeCreated⟩ ∧
      m.atoms.length = atomLines.length ∧
      m.bonds.length = bondLines.length ∧
      m.atoms.map atomKey = atomLines.map atomRecOf ∧
      m.bonds.map bondKey = bondLines.map (bondRecOf (atomLines.map atomRecOf)) := by
  obtain ⟨m, heq, hak, hbk, -⟩ :=
    execute_single_molecule sc name scene0 ctr0 pre names atomLines bondLines post ml al bl
      hml hal hbl hpre hnames hatoms hbonds hpost
  refine ⟨m, heq, ?_, ?_, hak, hbk⟩
  · simpa using congrArg List.length hak
  · simpa using congrArg List.length hbk

theorem C1_single_molecule_roundtrip_witness :
    ∃ m, execute (([] : List String) ++ ["@<TRIPOS>MOLECULE"] ++ ["benzene"] ++
        ["@<TRIPOS>ATOM"] ++ ["1 C1 0.0 0.0 0.0", "2 O1 1.5 0.0 0.0"] ++
        "@<TRIPOS>BOND" :: (["1 1 2 1"] ++ [""] ++ [])) true "" [] 0 =
        ⟨[] ++ [m], .finished .moleculeCreated⟩ ∧
      m.atoms.length = (["1 C1 0.0 0.0 0.0", "2 O1 1.5 0.0 0.0"] : List String).length ∧
      m.bonds.length = (["1 1 2 1"] : List String).length ∧
      m.atoms.map atomKey = ["1 C1 0.0 0.0 0.0", "2 O1 1.5 0.0 0.0"].map atomRecOf ∧
      m.bonds.map bondKey = ["1 1 2 1"].map
        (bondRecOf (["1 C1 0.0 0.0 0.0", "2 O1 1.5 0.0 0.0"].map atomRecOf)) :=
  C1_single_molecule_roundtrip true "" [] 0 [] ["benzene"]
    ["1 C1 0.0 0.0 0.0", "2 O1 1.5 0.0 0.0"] ["1 1 2 1"] [""]
    "@<TRIPOS>MOLECULE" "@<TRIPOS>ATOM" "@<TRIPOS>BOND"
    (by decide) (by decide) (by decide) (by decide) (by decide) (by decide) (by decide)
    (by decide) (by decide)

/-- C1 counterexample: a single-molecule file whose only bond line references ids
present among the atoms (the same atom twice) makes the import abort with a
`corruptedCoordinates` error report and build no molecule at all, against the
original round-trip claim. -/
theorem C1_degenerate_counterexample :
    execute (([] : List String) ++ ["@<TRIPOS>MOLECULE"] ++ ["benzene"] ++
        ["@<TRIPOS>ATOM"] ++ ["1 C1 0.0 0.0 0.0"] ++
        "@<TRIPOS>BOND" :: (([] : List String) ++ "1 1 1 1" :: [])) true "" [] 0 =
      ⟨[], .finished .corruptedCoordinates⟩ :=
  execute_first_degenerate true "" [] 0 [] ["benzene"] ["1 C1 0.0 0.0 0.0"] [] []
    "@<TRIPOS>MOLECULE" "@<TRIPOS>ATOM" "@<TRIPOS>BOND" "1 1 1 1"
    (by decide) (by decide) (by decide) (by decide) (by decide) (by decide) (by decide)
    (by decide)

/-- C2: a bond line whose source or target id resolves to no atom of the current
molecule makes `execute` raise `AttributeError` (Python reads `.location` of
`None`); the partial molecule with the atoms and the bonds built so far is left in
the scene, and nothing after the bad line — in particular no later molecule — is
processed.  (The original claim expected an `UnresolvedBondReference` failure with
no partial molecule and the later molecule still built;
`C2_unresolved_counterexample` refutes it.) -/
theorem C2_unresolved_bond (sc : Bool) (name : String) (scene0 : List MolObj) (ctr0 : ℕ)
    (pre names atomLines goodBonds after : List String) (ml al bl bad : String)
    (hml : MolMarkerLine ml) (hal : AtomMarkerLine al) (hbl : BondMarkerLine bl)
    (hpre : ∀ l ∈ pre, SkipWF l) (hnames : ∀ l ∈ names, SkipWF l)
    (hatoms : ∀ l ∈ atomLines, AtomLineWF l)
    (hbonds : ∀ l ∈ goodBonds, BondLineWF (atomLines.map atomRecOf) l)
    (hbad : UnresolvedBondLine (atomLines.map atomRecOf) bad) :
    ∃ molF, execute (pre ++ [ml] ++ names ++ [al] ++ atomLines ++ bl ::
        (goodBonds ++ bad :: after)) sc name scene0 ctr0 =
        ⟨scene0 ++ [molF], .raised .attributeError⟩ ∧
      molF.atoms.map atomKey = atomLines.map atomRecOf ∧
      molF.bonds.map bondKey = goodBonds.map (bondRecOf (atomLines.map atomRecOf)) :=
  execute_unresolved sc name scene0 ctr0 pre names atomLines goodBonds after ml al bl bad
    hml hal hbl hpre hnames hatoms hbonds hbad

theorem C2_unresolved_bond_witness :
    ∃ molF, execute (([] : List String) ++ ["@<TRIPOS>MOLECULE"] ++ ["m1"] ++
        ["@<TRIPOS>ATOM"] ++ ["1 C1 0.0 0.0 0.0"] ++
        "@<TRIPOS>BOND" :: (([] : List String) ++ "1 1 2 1" :: [])) true "" [] 0 =
        ⟨[] ++ [molF], .raised .attributeError⟩ ∧
      molF.atoms.map atomKey = ["1 C1 0.0 0.0 0.0"].map atomRecOf ∧
      molF.bonds.map bondKey =
        ([] : List String).map (bondRecOf (["1 C1 0.0 0.0 0.0"].map atomRecOf)) :=
  C2_unresolved_bond true "" [] 0 [] ["m1"] ["1 C1 0.0 0.0 0.0"] [] []
    "@<TRIPOS>MOLECULE" "@<TRIPOS>ATOM" "@<TRIPOS>BOND" "1 1 2 1"
    (by decide) (by decide) (by decide) (by decide) (by decide) (by decide) (by decide)
    (by decide)

/-- C2 counterexample: with a dangling bond reference in the first molecule and a
fully well-formed second molecule after it, the run raises `AttributeError` (not a
reported `UnresolvedBondReference`), the scene keeps the partial first molecule
(its one atom is present), and the second molecule is never built. -/
theorem C2_unresolved_counterexample :
    (execute (([] : List String) ++ ["@<TRIPOS>MOLECULE"] ++ ["m1"] ++
        ["@<TRIPOS>ATOM"] ++ ["1 C1 0.0 0.0 0.0"] ++
        "@<TRIPOS>BOND" :: (([] : List String) ++ "1 1 2 1" ::
          ["@<TRIPOS>MOLECULE", "m2", "@<TRIPOS>ATOM", "1 C1 0.0 0.0 0.0",
            "2 O1 1.5 0.0 0.0", "@<TRIPOS>BOND", "1 1 2 1"])) true "" [] 0).outcome =
      .raised .attributeError ∧
    (execute (([] : List String) ++ ["@<TRIPOS>MOLECULE"] ++ ["m1"] ++
        ["@<TRIPOS>ATOM"] ++ ["1 C1 0.0 0.0 0.0"] ++
        "@<TRIPOS>BOND" :: (([] : List String) ++ "1 1 2 1" ::
          ["@<TRIPOS>MOLECULE", "m2", "@<TRIPOS>ATOM", "1 C1 0.0 0.0 0.0",
            "2 O1 1.5 0.0 0.0", "@<TRIPOS>BOND", "1 1 2 1"])) true "" [] 0).scene.map
      (fun m => m.atoms.map atomKey) = [[(1, "C", (0, 0, 0))]] := by
  obtain ⟨molF, heq, hak, hbk⟩ := execute_unresolved true "" [] 0 [] ["m1"]
    ["1 C1 0.0 0.0 0.0"] []
    ["@<TRIPOS>MOLECULE", "m2", "@<TRIPOS>ATOM", "1 C1 0.0 0.0 0.0",
      "2 O1 1.5 0.0 0.0", "@<TRIPOS>BOND", "1 1 2 1"]
    "@<TRIPOS>MOLECULE" "@<TRIPOS>ATOM" "@<TRIPOS>BOND" "1 1 2 1"
    (by decide) (by decide) (by decide) (by decide) (by decide) (by decide) (by decide)
    (by decide)
  rw [heq]
  refine ⟨rfl, ?_⟩
  show (([] : List MolObj) ++ [molF]).map (fun m => m.atoms.map atomKey) =
    [[(1, "C", (0, 0, 0))]]
  rw [List.nil_append, List.map_singleton, hak]
  decide

/-- C5: when a degenerate (zero-length) bond occurs in the second molecule of a
multi-molecule file, the completed first molecule stays in the scene intact — no
global rollback — but the run returns immediately with a `corruptedCoordinates`
report, so the degenerate molecule is dropped and nothing after it is processed.
(The original claim said molecules after the failing one are still processed;
`C5_degenerate_counterexample` refutes that.) -/
theorem C5_second_molecule_degenerate (sc : Bool) (name : String) (scene0 : List MolObj)
    (ctr0 : ℕ)
    (pre1 names1 atomLines1 bondLines1 post1 names2 atomLines2 goodBonds2 after : List String)
    (ml1 al1 bl1 ml2 al2 bl2 bad : String)
    (hml1 : MolMarkerLine ml1) (hal1 : AtomMarkerLine al1) (hbl1 : BondMarkerLine bl1)
    (hml2 : MolMarkerLine ml2) (hal2 : AtomMarkerLine al2) (hbl2 : BondMarkerLine bl2)
    (hpre1 : ∀ l ∈ pre1, SkipWF l) (hnames1 : ∀ l ∈ names1, SkipWF l)
    (hnames2 : ∀ l ∈ names2, SkipWF l)
    (hatoms1 : ∀ l ∈ atomLines1, AtomLineWF l)
    (hbonds1 : ∀ l ∈ bondLines1, BondLineWF (atomLines1.map atomRecOf) l)
    (hpost1 : ∀ l ∈ post1, ShortLineWF l)
    (hatoms2 : ∀ l ∈ atomLines2, AtomLineWF l)
    (hbonds2 : ∀ l ∈ goodBonds2, BondLineWF (atomLines2.map atomRecOf) l)
    (hbad : DegenerateBondLine (atomLines2.map atomRecOf) bad) :
    ∃ m1, execute (pre1 ++ [ml1] ++ names1 ++ [al1] ++ atomLines1 ++ bl1 ::
        (bondLines1 ++ post1 ++ ml2 :: (names2 ++ [al2] ++ atomLines2 ++ bl2 ::
          (goodBonds2 ++ bad :: after)))) sc name scene0 ctr0 =
        ⟨scene0 ++ [m1], .finished .corruptedCoordinates⟩ ∧
      m1.atoms.map atomKey = atomLines1.map atomRecOf ∧
      m1.bonds.map bondKey = bondLines1.map (bondRecOf (atomLines1.map atomRecOf)) :=
  execute_second_degenerate sc name scene0 ctr0 pre1 names1 atomLines1 bondLines1 post1
    names2 atomLines2 goodBonds2 after ml1 al1 bl1 ml2 al2 bl2 bad hml1 hal1 hbl1 hml2
    hal2 hbl2 hpre1 hnames1 hnames2 hatoms1 hbonds1 hpost1 hatoms2 hbonds2 hbad

theorem C5_second_molecule_degenerate_witness :
    ∃ m1, execute (([] : List String) ++ ["@<TRIPOS>MOLECULE"] ++ ["m1"] ++
        ["@<TRIPOS>ATOM"] ++ ["1 C1 0.0 0.0 0.0", "2 O1 1.5 0.0 0.0"] ++
        "@<TRIPOS>BOND" :: (["1 1 2 1"] ++ [] ++ "@<TRIPOS>MOLECULE" ::
          (["m2"] ++ ["@<TRIPOS>ATOM"] ++ ["1 C1 0.0 0.0 0.0"] ++
            "@<TRIPOS>BOND" :: (([] : List String) ++ "1 1 1 1" :: []))))
        true "" [] 0 =
        ⟨[] ++ [m1], .finished .corruptedCoordinates⟩ ∧
      m1.atoms.map atomKey = ["1 C1 0.0 0.0 0.0", "2 O1 1.5 0.0 0.0"].map atomRecOf ∧
      m1.bonds.map bondKey = ["1 1 2 1"].map
        (bondRecOf (["1 C1 0.0 0.0 0.0", "2 O1 1.5 0.0 0.0"].map atomRecOf)) :=
  C5_second_molecule_degenerate true "" [] 0 [] ["m1"]
    ["1 C1 0.0 0.0 0.0", "2 O1 1.5 0.0 0.0"] ["1 1 2 1"] [] ["m2"] ["1 C1 0.0 0.0 0.0"]
    [] [] "@<TRIPOS>MOLECULE" "@<TRIPOS>ATOM" "@<TRIPOS>BOND" "@<TRIPOS>MOLECULE"
    "@<TRIPOS>ATOM" "@<TRIPOS>BOND" "1 1 1 1"
    (by decide) (by decide) (by decide) (by decide) (by decide) (by decide) (by decide)
    (by decide) (by decide) (by decide) (by decide) (by decide) (by decide) (by decide)
    (by decide)

/-- C5 counterexample: a three-molecule file where the second molecule has a
zero-length bond ends with only the first molecule in the scene: the third,
well-formed molecule is never processed, against the claim that later molecules
still are. -/
theorem C5_degenerate_counterexample :
    (execute (([] : List String) ++ ["@<TRIPOS>MOLECULE"] ++ ["m1"] ++
        ["@<TRIPOS>ATOM"] ++ ["1 C1 0.0 0.0 0.0", "2 O1 1.5 0.0 0.0"] ++
        "@<TRIPOS>BOND" :: (["1 1 2 1"] ++ [] ++ "@<TRIPOS>MOLECULE" ::
          (["m2"] ++ ["@<TRIPOS>ATOM"] ++ ["1 C1 0.0 0.0 0.0"] ++
            "@<TRIPOS>BOND" :: (([] : List String) ++ "1 1 1 1" ::
              ["@<TRIPOS>MOLECULE", "m3", "@<TRIPOS>ATOM", "1 C1 0.0 0.0 0.0"]))))
        true "" [] 0).outcome = .finished .corruptedCoordinates ∧
    (execute (([] : List String) ++ ["@<TRIPOS>MOLECULE"] ++ ["m1"] ++
        ["@<TRIPOS>ATOM"] ++ ["1 C1 0.0 0.0 0.0", "2 O1 1.5 0.0 0.0"] ++
        "@<TRIPOS>BOND" :: (["1 1 2 1"] ++ [] ++ "@<TRIPOS>MOLECULE" ::
          (["m2"] ++ ["@<TRIPOS>ATOM"] ++ ["1 C1 0.0 0.0 0.0"] ++
            "@<TRIPOS>BOND" :: (([] : List String) ++ "1 1 1 1" ::
              ["@<TRIPOS>MOLECULE", "m3", "@<TRIPOS>ATOM", "1 C1 0.0 0.0 0.0"]))))
        true "" [] 0).scene.length = 1 := by
  obtain ⟨m1, heq, hak, hbk⟩ := execute_second_degenerate true "" [] 0 [] ["m1"]
    ["1 C1 0.0 0.0 0.0", "2 O1 1.5 0.0 0.0"] ["1 1 2 1"] [] ["m2"] ["1 C1 0.0 0.0 0.0"]
    [] ["@<TRIPOS>MOLECULE", "m3", "@<TRIPOS>ATOM", "1 C1 0.0 0.0 0.0"]
    "@<TRIPOS>MOLECULE" "@<TRIPOS>ATOM" "@<TRIPOS>BOND" "@<TRIPOS>MOLECULE"
    "@<TRIPOS>ATOM" "@<TRIPOS>BOND" "1 1 1 1"
    (by decide) (by decide) (by decide) (by decide) (by decide) (by decide) (by decide)
    (by decide) (by decide) (by decide) (by decide) (by decide) (by decide) (by decide)
    (by decide)
  rw [heq]
  exact ⟨rfl, rfl⟩

/-- C8: `import_materials` on a molecule with an empty registry copies into it
exactly the entries of the spec's first-match-wins walk over the candidate entries
(the BSDF-filtered element materials of every atom-bearing scene molecule, in
order): each copied entry's element is allowed and carries the material of the
first candidate offering it, no element appears twice afterwards, existing entries
are never overwritten, and every allowed element some candidate offers ends up
present.  The embedding is pure, so candidate registries are never mutated. -/
theorem C8_import_materials_first_wins (scene : List MolObj) (mol : MolObj)
    (allowed : List String) (hem : mol.element_materials = []) :
    ∃ mol', import_materials scene mol allowed = .ok mol' ∧
      mol'.element_materials = firstWins (validEntries scene) allowed [] ∧
      (mol'.element_materials.map (fun x => x.element)).Nodup ∧
      (∀ e ∈ mol'.element_materials, e.element ∈ allowed ∧
        find_material_from_element (validEntries scene) e.element = some e.material) ∧
      (∀ s ∈ allowed, (find_material_from_element (validEntries scene) s).isSome = true →
        s ∈ mol'.element_materials.map (fun x => x.element)) := by
  obtain ⟨mol', him, hreg⟩ := import_materials_char scene mol allowed hem
  refine ⟨mol', him, hreg, ?_, ?_, ?_⟩
  · rw [hreg]
    exact firstWins_nodup (validEntries scene) allowed [] (by simp)
  · intro e he
    rw [hreg] at he
    rcases firstWins_mem_spec (validEntries scene) allowed [] e he with hin | ⟨ha, -, hf⟩
    · exact absurd hin (List.not_mem_nil e)
    · exact ⟨ha, hf⟩
  · intro s hs hsome
    rw [hreg]
    exact firstWins_complete (validEntries scene) allowed [] s hs (Or.inr hsome)

theorem C8_import_materials_first_wins_witness :
    ∃ mol', import_materials c8Scene (mkEmpty "x" 9) ["C", "N"] = .ok mol' ∧
      mol'.element_materials = firstWins (validEntries c8Scene) ["C", "N"] [] ∧
      (mol'.element_materials.map (fun x => x.element)).Nodup ∧
      (∀ e ∈ mol'.element_materials, e.element ∈ ["C", "N"] ∧
        find_material_from_element (validEntries c8Scene) e.element = some e.material) ∧
      (∀ s ∈ ["C", "N"],
        (find_material_from_element (validEntries c8Scene) s).isSome = true →
        s ∈ mol'.element_materials.map (fun x => x.element)) :=
  C8_import_materials_first_wins c8Scene (mkEmpty "x" 9) ["C", "N"] rfl

/-- C10: on a two-molecule file whose first molecule has no `@<TRIPOS>BOND` marker
(running with colour sharing off, so the pre-pass does not raise first), the first
extraction pass never meets its break condition — the break needs the bonds flag —
so it scans to the end of the input, absorbs the second molecule's atom and bond
lines into the first built molecule, and leaves the resume offset unchanged; the
second pass then re-reads the same lines and produces a structural duplicate of
that combined molecule. -/
theorem C10_duplicate_absorbed_molecule (name : String) (scene0 : List MolObj) (ctr0 : ℕ)
    (pre1 names1 atomLines1 mid atomLines2 bondLines2 post : List String)
    (ml1 al1 al2 bl2 : String)
    (hml1 : MolMarkerLine ml1) (hal1 : AtomMarkerLine al1) (hal2 : AtomMarkerLine al2)
    (hbl2 : BondMarkerLine bl2)
    (hpre1 : ∀ l ∈ pre1, SkipWF l) (hnames1 : ∀ l ∈ names1, SkipWF l)
    (hmid : ∀ l ∈ mid, AtomShortWF l)
    (hmidc : mid.countP (fun l => strContains l "@<TRIPOS>MOLECULE") = 1)
    (hatoms1 : ∀ l ∈ atomLines1, AtomLineWF l)
    (hatoms2 : ∀ l ∈ atomLines2, AtomLineWF l)
    (hbonds2 : ∀ l ∈ bondLines2, BondLineWF ((atomLines1 ++ atomLines2).map atomRecOf) l)
    (hpost : ∀ l ∈ post, ShortLineWF l) :
    ∃ m1 m2, execute (pre1 ++ [ml1] ++ names1 ++ [al1] ++ atomLines1 ++ mid ++ [al2] ++
        atomLines2 ++ bl2 :: (bondLines2 ++ post)) false name scene0 ctr0 =
        ⟨scene0 ++ [m1] ++ [m2], .finished .moleculeCreated⟩ ∧
      MolS m1 m2 ∧
      m1.atoms.map atomKey = (atomLines1 ++ atomLines2).map atomRecOf ∧
      m1.bonds.map bondKey =
        bondLines2.map (bondRecOf ((atomLines1 ++ atomLines2).map atomRecOf)) := by
  obtain ⟨-, hml1Mr, hml1A, hml1B⟩ := hml1
  obtain ⟨hal1A, -, hal1Mr⟩ := hal1
  obtain ⟨hal2A, -, hal2Mr⟩ := hal2
  obtain ⟨hbl2B, hbl2A, -, hbl2Mr⟩ := hbl2
  have hcount : (pre1 ++ [ml1] ++ names1 ++ [al1] ++ atomLines1 ++ mid ++ [al2] ++
      atomLines2 ++ bl2 :: (bondLines2 ++ post)).countP
        (fun l => strContains l "@<TRIPOS>MOLECULE") = 2 := by
    simp only [List.countP_append, List.countP_cons,
      countP_marker_zero pre1 (fun l hl => (hpre1 l hl).2.2),
      countP_marker_zero names1 (fun l hl => (hnames1 l hl).2.2),
      countP_marker_zero atomLines1 (fun l hl => (hatoms1 l hl).1.2.2.2),
      countP_marker_zero atomLines2 (fun l hl => (hatoms2 l hl).1.2.2.2),
      countP_marker_zero bondLines2 (fun l hl => (hbonds2 l hl).1.2.2.2),
      countP_marker_zero post (fun l hl => (hpost l hl).1.2.2.2), hmidc]
    simp [hml1Mr, hal1Mr, hal2Mr, hbl2Mr]
  obtain ⟨m1, c1, hiter1, hak1, hbk1, hnm1⟩ :=
    execLoop_iter_absorb (pre1 ++ [ml1] ++ names1 ++ [al1] ++ atomLines1 ++ mid ++ [al2] ++
        atomLines2 ++ bl2 :: (bondLines2 ++ post)) name 1 0 scene0 ctr0
      pre1 names1 atomLines1 mid atomLines2 bondLines2 post ml1 al1 al2 bl2
      (by rw [List.drop_zero]) hpre1 hnames1 hml1A hml1B hal1A hmid hal2A hbl2B hbl2A
      hatoms1 hatoms2 hbonds2 hpost
  obtain ⟨m2, c2, hiter2, hak2, hbk2, hnm2⟩ :=
    execLoop_iter_absorb (pre1 ++ [ml1] ++ names1 ++ [al1] ++ atomLines1 ++ mid ++ [al2] ++
        atomLines2 ++ bl2 :: (bondLines2 ++ post)) name 0 0 (scene0 ++ [m1]) c1
      pre1 names1 atomLines1 mid atomLines2 bondLines2 post ml1 al1 al2 bl2
      (by rw [List.drop_zero]) hpre1 hnames1 hml1A hml1B hal1A hmid hal2A hbl2B hbl2A
      hatoms1 hatoms2 hbonds2 hpost
  refine ⟨m1, m2, ?_,
    ⟨hnm1.trans hnm2.symm, hak1.trans hak2.symm, hbk1.trans hbk2.symm⟩, hak1, hbk1⟩
  simp only [execute]
  rw [hcount, if_neg (by omega : ¬(2 = 0))]
  have hiter1' : execLoop (pre1 ++ [ml1] ++ names1 ++ [al1] ++ atomLines1 ++ mid ++
      [al2] ++ atomLines2 ++ bl2 :: (bondLines2 ++ post)) false name 2 0 scene0 ctr0 =
      execLoop (pre1 ++ [ml1] ++ names1 ++ [al1] ++ atomLines1 ++ mid ++ [al2] ++
        atomLines2 ++ bl2 :: (bondLines2 ++ post)) false name 1 0 (scene0 ++ [m1]) c1 :=
    hiter1
  have hiter2' : execLoop (pre1 ++ [ml1] ++ names1 ++ [al1] ++ atomLines1 ++ mid ++
      [al2] ++ atomLines2 ++ bl2 :: (bondLines2 ++ post)) false name 1 0
        (scene0 ++ [m1]) c1 =
      execLoop (pre1 ++ [ml1] ++ names1 ++ [al1] ++ atomLines1 ++ mid ++ [al2] ++
        atomLines2 ++ bl2 :: (bondLines2 ++ post)) false name 0 0
        (scene0 ++ [m1] ++ [m2]) c2 := hiter2
  rw [hiter1', hiter2', execLoop_zero]

theorem C10_duplicate_absorbed_molecule_witness :
    ∃ m1 m2, execute (([] : List String) ++ ["@<TRIPOS>MOLECULE"] ++ ["m1"] ++
        ["@<TRIPOS>ATOM"] ++ ["1 C1 0.0 0.0 0.0"] ++ ["@<TRIPOS>MOLECULE", "m2"] ++
        ["@<TRIPOS>ATOM"] ++ ["2 O1 1.5 0.0 0.0"] ++
        "@<TRIPOS>BOND" :: (["1 1 2 1"] ++ [])) false "" [] 0 =
        ⟨[] ++ [m1] ++ [m2], .finished .moleculeCreated⟩ ∧
      MolS m1 m2 ∧
      m1.atoms.map atomKey =
        (["1 C1 0.0 0.0 0.0"] ++ ["2 O1 1.5 0.0 0.0"]).map atomRecOf ∧
      m1.bonds.map bondKey = ["1 1 2 1"].map
        (bondRecOf ((["1 C1 0.0 0.0 0.0"] ++ ["2 O1 1.5 0.0 0.0"]).map atomRecOf)) :=
  C10_duplicate_absorbed_molecule "" [] 0 [] ["m1"] ["1 C1 0.0 0.0 0.0"]
    ["@<TRIPOS>MOLECULE", "m2"] ["2 O1 1.5 0.0 0.0"] ["1 1 2 1"] []
    "@<TRIPOS>MOLECULE" "@<TRIPOS>ATOM" "@<TRIPOS>ATOM" "@<TRIPOS>BOND"
    (by decide) (by decide) (by decide) (by decide) (by decide) (by decide) (by decide)
    (by decide) (by decide) (by decide) (by decide) (by decide)

/-- C10 counterexample: with the operator's default `same_colors = True`, the very
same file shape dies before any extraction pass — the element pre-pass hits the
second `@<TRIPOS>MOLECULE` line inside the atom section and raises `IndexError` —
so no duplicate (indeed no molecule with atoms at all) is produced, against the
unconditional original claim. -/
theorem C10_same_colors_counterexample :
    execute ["@<TRIPOS>MOLECULE", "m1", "@<TRIPOS>ATOM", "1 C1 0.0 0.0 0.0",
        "@<TRIPOS>MOLECULE", "m2", "@<TRIPOS>ATOM", "2 O1 1.5 0.0 0.0"]
      true "" [] 0 = ⟨[mkEmpty "" 0], .raised .indexError⟩ := rfl

end MolViz
